import Mathlib

/-!
# A linear SVM trainer and its margin renderer (`src/sdl.cpp`)

Shallow embedding of the functions of `sdl.cpp` and proofs about them.

Modelling conventions.

* A C `int` is a 32-bit two's complement integer.  Its value is carried by an
  `Int`; the result of every `int` operation of the program is reduced to the
  range of `int` by `wrap32`, which is what the machine yields when a signed
  operation overflows.  Integer division is the truncating division of C and
  is fallible: a zero divisor has no result.
* A C `double` is an IEEE-754 binary64 value (`F64`): a signed zero, a finite
  non-zero value, an infinity or a NaN.  Every operation is rounded on its
  own to the nearest double, ties to the even significand, with gradual
  underflow and overflow to an infinity; no operation is fused with another
  and none is carried out in a wider format.
* Converting a double to `int` truncates toward zero when the value is in the
  range of `int`.  C leaves the other conversions (a value out of range, an
  infinity, a NaN) undefined: the functions that convert take the integer the
  platform yields there as their first argument, `undef`.
* The square root of line 98 has an integer argument below `2^31` and is
  divided by an integer: the truncated quotient is computed on integers (see
  `dash_count`).
* An array argument (`int *x`) is an indexing function `Nat → Int`.
* A `for (i = 0; i < n; i++)` loop whose body does not touch `i` or `n` is a
  left fold over `List.range n.toNat`, so a negative bound runs no iteration.
* The calls made to the SDL library are recorded, in order, as a list of
  `SDLCall`.
* The values `rand()` returns during a run are a function `rand : Nat → Nat`,
  `rand k` being the value of call number `k`.
* The functions with the suffix `_math` are not functions of the program:
  they compute the dashed line on mathematical integers, without reduction,
  and are what the program is compared with where the width of `int` is the
  subject.
-/

namespace Sdl

/-! ## Constants (`#define`s, lines 8-18) -/

def NUM_POINTS : Int := 100
def WINDOW_WIDTH : Int := 640
def WINDOW_HEIGHT : Int := 480
def POINT_SIZE : Int := 10
def MARGIN_WIDTH : Int := 40

/-- The `Color` struct (lines 21-23); the components are `Uint8` values. -/
structure Color where
  r : Nat
  g : Nat
  b : Nat
deriving DecidableEq, Repr

/-! ## The `int` of the machine -/

/-- The range of a 32-bit signed `int`. -/
def in_int (z : Int) : Prop := -2147483648 ≤ z ∧ z ≤ 2147483647

instance (z : Int) : Decidable (in_int z) := by
  unfold in_int
  infer_instance

/-- Reduction of an integer to the 32-bit two's complement range. -/
def wrap32 (z : Int) : Int := (z + 2147483648) % 4294967296 - 2147483648

/-- The integer division `a / b` of C: truncating, and without a result when
the divisor is zero. -/
def int_div (a b : Int) : Option Int :=
  if b = 0 then none else some (Int.tdiv a b)

/-! ## The `double` of the machine (IEEE-754 binary64)

The functions of this section compute as the `double` of the program does:
every operation returns the exact result rounded to the nearest double, ties
to the even significand, with gradual underflow, overflow to an infinity,
signed zeros and NaN. -/

/-- A `double`: a signed zero, a finite non-zero value `±m * 2^e` (with
`2^52 ≤ m < 2^53` and `-1074 ≤ e ≤ 971`, or `0 < m < 2^52` and `e = -1074`
for a subnormal), an infinity, or a NaN.  `neg` is the sign bit. -/
inductive F64 where
  | zero (neg : Bool)
  | fin (neg : Bool) (m : Nat) (e : Int)
  | inf (neg : Bool)
  | nan
deriving DecidableEq, Repr

namespace F64

/-- The position of the leading bit of `n`, searched in at most `fuel`
halvings. -/
def log2_fuel : Nat → Nat → Nat
  | 0, _ => 0
  | fuel + 1, n => if 2 ≤ n then log2_fuel fuel (n / 2) + 1 else 0

/-- The position of the leading bit of `n`: `2^(log2 n) ≤ n < 2^(log2 n + 1)`
for `n > 0`. -/
def log2 (n : Nat) : Nat := log2_fuel n n

/-- Whether `2^E ≤ num / den`. -/
def pow2_le (num den : Nat) (E : Int) : Bool :=
  if 0 ≤ E then decide (den * 2 ^ E.toNat ≤ num) else decide (den ≤ num * 2 ^ (-E).toNat)

/-- The exponent of the leading bit of `num / den` (`num, den > 0`): the
integer `E` with `2^E ≤ num / den < 2^(E + 1)`. -/
def lead_exp (num den : Nat) : Int :=
  let E0 : Int := (log2 num : Int) - (log2 den : Int)
  if pow2_le num den E0 then E0 else E0 - 1

/-- The exponent of the last place of the double nearest to `num / den`
(`num, den > 0`): 52 below the exponent of the leading bit of `num / den`,
and at least `-1074`, the exponent of the subnormal doubles. -/
def ulp_exp (num den : Nat) : Int :=
  max (lead_exp num den - 52) (-1074)

/-- The integer nearest to `num / (den * 2^e)`, a tie going to the even
integer. -/
def nearest (num den : Nat) (e : Int) : Nat :=
  let N : Nat := if 0 ≤ e then num else num * 2 ^ (-e).toNat
  let D : Nat := if 0 ≤ e then den * 2 ^ e.toNat else den
  let k : Nat := N / D
  let r : Nat := N % D
  if D < 2 * r ∨ (2 * r = D ∧ k % 2 = 1) then k + 1 else k

/-- The double nearest to `± num / den` (`den > 0`), ties to even: the
significand is the integer nearest to `num / (den * 2^e)` for the exponent
`e` of the last place; a significand rounded up to `2^53` is renormalised, a
significand `0` is an underflow to zero, an exponent above `971` an overflow
to an infinity. -/
def round (neg : Bool) (num den : Nat) : F64 :=
  if num = 0 then zero neg
  else
    let e : Int := ulp_exp num den
    let k : Nat := nearest num den e
    let m : Nat := if k = 2 ^ 53 then 2 ^ 52 else k
    let ef : Int := if k = 2 ^ 53 then e + 1 else e
    if m = 0 then zero neg
    else if 971 < ef then inf neg
    else fin neg m ef

/-- The double nearest to `± n * 2^e`. -/
def round_scaled (neg : Bool) (n : Nat) (e : Int) : F64 :=
  if 0 ≤ e then round neg (n * 2 ^ e.toNat) 1 else round neg n (2 ^ (-e).toNat)

/-- The conversion of an integer to `double`. -/
def ofInt (z : Int) : F64 := round (decide (z < 0)) z.natAbs 1

/-- The negation `-a`. -/
def neg : F64 → F64
  | zero s => zero (!s)
  | fin s m e => fin (!s) m e
  | inf s => inf (!s)
  | nan => nan

/-- The signed integer `±m * 2^(e - emin)`. -/
def aligned (s : Bool) (m : Nat) (e emin : Int) : Int :=
  (if s then -1 else 1) * ((m * 2 ^ (e - emin).toNat : Nat) : Int)

/-- The sum `a + b`. -/
def add : F64 → F64 → F64
  | nan, _ => nan
  | _, nan => nan
  | inf s, inf t => if s = t then inf s else nan
  | inf s, _ => inf s
  | _, inf t => inf t
  | zero s, zero t => zero (s && t)
  | zero _, b => b
  | a, zero _ => a
  | fin s m e, fin t n f =>
    let emin := min e f
    let sum : Int := aligned s m e emin + aligned t n f emin
    if sum = 0 then zero false else round_scaled (decide (sum < 0)) sum.natAbs emin

/-- The difference `a - b`. -/
def sub (a b : F64) : F64 := add a (neg b)

/-- The product `a * b`. -/
def mul : F64 → F64 → F64
  | nan, _ => nan
  | _, nan => nan
  | inf _, zero _ => nan
  | zero _, inf _ => nan
  | inf s, inf t => inf (xor s t)
  | inf s, fin t _ _ => inf (xor s t)
  | fin s _ _, inf t => inf (xor s t)
  | zero s, zero t => zero (xor s t)
  | zero s, fin t _ _ => zero (xor s t)
  | fin s _ _, zero t => zero (xor s t)
  | fin s m e, fin t n f => round_scaled (xor s t) (m * n) (e + f)

/-- The quotient `a / b`.  It never traps: a division by zero gives an
infinity, or a NaN for `0.0 / 0.0`. -/
def div : F64 → F64 → F64
  | nan, _ => nan
  | _, nan => nan
  | inf _, inf _ => nan
  | zero _, zero _ => nan
  | inf s, zero t => inf (xor s t)
  | inf s, fin t _ _ => inf (xor s t)
  | zero s, inf t => zero (xor s t)
  | fin s _ _, inf t => zero (xor s t)
  | zero s, fin t _ _ => zero (xor s t)
  | fin s _ _, zero t => inf (xor s t)
  | fin s m e, fin t n f =>
    if f ≤ e then round (xor s t) (m * 2 ^ (e - f).toNat) n
    else round (xor s t) m (n * 2 ^ (f - e).toNat)

/-- The comparison `a < b`. -/
def lt : F64 → F64 → Bool
  | nan, _ => false
  | _, nan => false
  | inf s, inf t => s && !t
  | inf s, _ => s
  | _, inf t => !t
  | zero _, zero _ => false
  | zero _, fin t _ _ => !t
  | fin s _ _, zero _ => s
  | fin s m e, fin t n f =>
    decide (aligned s m e (min e f) < aligned t n f (min e f))

/-- The conversion `(int)a`: the value truncated toward zero when that is in
the range of `int`.  Otherwise (out of range, infinite, NaN) the conversion
is undefined in C and gives `undef`. -/
def toInt (undef : Int) : F64 → Int
  | zero _ => 0
  | fin s m e =>
    let mag : Nat := if 0 ≤ e then m * 2 ^ e.toNat else m / 2 ^ (-e).toNat
    let z : Int := if s then -(mag : Int) else (mag : Int)
    if -2147483648 ≤ z ∧ z ≤ 2147483647 then z else undef
  | inf _ => undef
  | nan => undef

end F64

/-! ## The trainer (lines 44-92) -/

/-- The `dot_product` function (lines 45-51): `result` starts at `0.0` and
receives `a[i] * b[i]` for `i = 0, ..., n-1` in that order. -/
def dot_product (a b : Nat → F64) (n : Int) : F64 :=
  (List.range n.toNat).foldl (fun result i => F64.add result (F64.mul (a i) (b i)))
    (F64.zero false)

/-- The `SVMModel` struct (lines 54-57): `w0` is `w[0]`, `w1` is `w[1]`. -/
structure SVMModel where
  w0 : F64
  w1 : F64
  b : F64
deriving DecidableEq, Repr

/-- The array `model->w` seen as an indexing function. -/
def SVMModel.w (model : SVMModel) : Nat → F64
  | 0 => model.w0
  | _ => model.w1

/-- The compound literal `(double[]){x[i], y[i]}` of line 65: two ints
converted to double. -/
def feature_pair (xi yi : Int) : Nat → F64
  | 0 => F64.ofInt xi
  | _ => F64.ofInt yi

/-- The accumulators `dw[0]`, `dw[1]`, `db` of `update_model`. -/
structure Gradient where
  dw0 : F64
  dw1 : F64
  db : F64
deriving DecidableEq, Repr

/-- The body of the sample loop of `update_model` (lines 65-70), for sample
`i`: `y[i]` is converted to double for the margin; the negation `-y[i]` and
the products `-y[i] * x[i]`, `-y[i] * y[i]` are `int` operations, whose
results are converted to double when added to the accumulators. -/
def update_model_step (model : SVMModel) (x y : Nat → Int) (g : Gradient) (i : Nat) :
    Gradient :=
  let margin : F64 :=
    F64.mul (F64.ofInt (y i))
      (F64.add (dot_product model.w (feature_pair (x i) (y i)) 2) model.b)
  if F64.lt margin (F64.ofInt 1) then
    { dw0 := F64.add g.dw0 (F64.ofInt (wrap32 (wrap32 (-(y i)) * x i)))
      dw1 := F64.add g.dw1 (F64.ofInt (wrap32 (wrap32 (-(y i)) * y i)))
      db := F64.add g.db (F64.ofInt (wrap32 (-(y i)))) }
  else g

/-- The sample loop of `update_model` (lines 61-71): the accumulators start
at `0.0` and the samples `0, ..., n-1` are visited in order. -/
def update_model_loop (model : SVMModel) (x y : Nat → Int) (n : Int) : Gradient :=
  (List.range n.toNat).foldl (update_model_step model x y)
    { dw0 := F64.zero false, dw1 := F64.zero false, db := F64.zero false }

/-- The `update_model` function (lines 60-81): the model is passed in and the
updated model is returned. -/
def update_model (model : SVMModel) (x y : Nat → Int) (n : Int) (learning_rate : F64) :
    SVMModel :=
  let g := update_model_loop model x y n
  -- Regularization for weights (lines 74-75)
  let dw0 := F64.add g.dw0 model.w0
  let dw1 := F64.add g.dw1 model.w1
  -- Apply gradient descent updates (lines 78-80)
  { w0 := F64.sub model.w0 (F64.mul learning_rate dw0)
    w1 := F64.sub model.w1 (F64.mul learning_rate dw1)
    b := F64.sub model.b (F64.mul learning_rate g.db) }

/-- The `train_svm` function (lines 84-92): `model` is what the caller's
struct held on entry; its three fields are overwritten before the loop. -/
def train_svm (model : SVMModel) (x y : Nat → Int) (n : Int) (learning_rate : F64)
    (max_iter : Int) : SVMModel :=
  let model := { model with w0 := F64.zero false }
  let model := { model with w1 := F64.zero false }
  let model := { model with b := F64.zero false }
  (List.range max_iter.toNat).foldl (fun m _ => update_model m x y n learning_rate) model

/-! ## The calls made to SDL -/

/-- One call to the SDL library, with its integer arguments. -/
inductive SDLCall where
  | init
  | createWindow (w h : Int)
  | createRenderer
  | setRenderDrawColor (r g b a : Nat)
  | renderClear
  | renderFillRect (x y w h : Int)
  | renderDrawLine (x1 y1 x2 y2 : Int)
  | renderPresent
  | delay (ms : Nat)
  | destroyRenderer
  | destroyWindow
  | quit
deriving DecidableEq, Repr

/-! ## The dashed line (lines 94-110) -/

/-- The expression `(int)(sqrt(dx * dx + dy * dy) / dash_length)` of line 98.
The sum of squares is an `int`, reduced to 32 bits.  When it comes out
negative its square root is a NaN, and with `dash_length = 0` the quotient is
not finite: the conversion is then undefined.  Otherwise the square root of
the integer, divided by the integer `dash_length` and truncated, is the
truncated quotient of the integer square root (see
`dash_count_math_eq_floor`). -/
def dash_count (undef : Int) (dx dy dash_length : Int) : Int :=
  let s := wrap32 (wrap32 (dx * dx) + wrap32 (dy * dy))
  if dash_length = 0 then undef
  else if s < 0 then undef
  else Int.tdiv (Nat.sqrt s.toNat : Int) dash_length

/-- What one iteration of the loop of `draw_dashed_line` computes: the index,
the four coordinates, and whether `SDL_RenderDrawLine` was called. -/
structure DashIter where
  i : Nat
  start_x : Int
  start_y : Int
  end_x : Int
  end_y : Int
  drawn : Bool
deriving DecidableEq, Repr

/-- The body of the loop of `draw_dashed_line` (lines 101-108) at index `i`,
every `int` operation reduced to 32 bits. -/
def draw_dashed_line_body (x1 y1 dx dy dash_count : Int) (i : Nat) : Option DashIter := do
  let q1 ← int_div (wrap32 ((i : Int) * dx)) dash_count
  let start_x := wrap32 (x1 + wrap32 q1)
  let q2 ← int_div (wrap32 ((i : Int) * dy)) dash_count
  let start_y := wrap32 (y1 + wrap32 q2)
  let q3 ← int_div (wrap32 (wrap32 ((i : Int) + 1) * dx)) dash_count
  let end_x := wrap32 (x1 + wrap32 q3)
  let q4 ← int_div (wrap32 (wrap32 ((i : Int) + 1) * dy)) dash_count
  let end_y := wrap32 (y1 + wrap32 q4)
  pure { i := i, start_x := start_x, start_y := start_y, end_x := end_x, end_y := end_y
         drawn := Int.tmod (i : Int) 2 == 0 }

/-- The loop of `draw_dashed_line` over the given indices, in order; it has
no result once a division has none. -/
def draw_dashed_line_loop (x1 y1 dx dy dash_count : Int) : List Nat → Option (List DashIter)
  | [] => some []
  | i :: rest => do
    let it ← draw_dashed_line_body x1 y1 dx dy dash_count i
    let its ← draw_dashed_line_loop x1 y1 dx dy dash_count rest
    pure (it :: its)

/-- The iterations `draw_dashed_line` goes through (lines 96-109), for
`i = 0, ..., dash_count - 1`. -/
def draw_dashed_line_iters (undef : Int) (x1 y1 x2 y2 dash_length : Int) :
    Option (List DashIter) :=
  let dx := wrap32 (x2 - x1)
  let dy := wrap32 (y2 - y1)
  let dash_count := dash_count undef dx dy dash_length
  draw_dashed_line_loop x1 y1 dx dy dash_count (List.range dash_count.toNat)

/-- The `draw_dashed_line` function (lines 95-110): the SDL calls it makes,
one `SDL_RenderDrawLine` for every iteration that took the `i % 2 == 0`
branch. -/
def draw_dashed_line (undef : Int) (x1 y1 x2 y2 dash_length : Int) : Option (List SDLCall) :=
  (draw_dashed_line_iters undef x1 y1 x2 y2 dash_length).map fun its =>
    its.filterMap fun it =>
      if it.drawn then some (SDLCall.renderDrawLine it.start_x it.start_y it.end_x it.end_y)
      else none

/-! ## The visualisation (lines 112-155) -/

/-- The `visualize_svm` function (lines 113-155): the SDL calls it makes.
The window title is not recorded.  The abscissas `x1`, `x2` and the constant
`MARGIN_WIDTH` are ints converted to double inside the double expressions;
the ordinates are double quotients converted to `int`. -/
def visualize_svm (undef : Int) (x y : Nat → Int) (colors : Nat → Color) (n : Int)
    (model : SVMModel) : Option (List SDLCall) := do
  -- SDL setup (lines 115-120)
  let setup : List SDLCall :=
    [SDLCall.init, SDLCall.createWindow WINDOW_WIDTH WINDOW_HEIGHT, SDLCall.createRenderer,
     SDLCall.setRenderDrawColor 255 255 255 255, SDLCall.renderClear]
  -- Draw data points (lines 123-127)
  let points : List SDLCall :=
    (List.range n.toNat).flatMap fun i =>
      [SDLCall.setRenderDrawColor (colors i).r (colors i).g (colors i).b 255,
       SDLCall.renderFillRect (wrap32 (x i - Int.tdiv POINT_SIZE 2))
         (wrap32 (y i - Int.tdiv POINT_SIZE 2)) POINT_SIZE POINT_SIZE]
  -- Draw the decision boundary (lines 130-134)
  let x1 : Int := Int.tdiv (-WINDOW_WIDTH) 2
  let x2 : Int := Int.tdiv WINDOW_WIDTH 2
  let y1 : Int := F64.toInt undef
    (F64.div (F64.neg (F64.add (F64.mul model.w0 (F64.ofInt x1)) model.b)) model.w1)
  let y2 : Int := F64.toInt undef
    (F64.div (F64.neg (F64.add (F64.mul model.w0 (F64.ofInt x2)) model.b)) model.w1)
  let boundary : List SDLCall :=
    [SDLCall.setRenderDrawColor 0 255 0 255,
     SDLCall.renderDrawLine (wrap32 (x1 + Int.tdiv WINDOW_WIDTH 2))
       (wrap32 (y1 + Int.tdiv WINDOW_HEIGHT 2)) (wrap32 (x2 + Int.tdiv WINDOW_WIDTH 2))
       (wrap32 (y2 + Int.tdiv WINDOW_HEIGHT 2))]
  -- Draw the upper margin line (lines 137-140)
  let margin_y1 : Int := F64.toInt undef
    (F64.div (F64.neg (F64.add (F64.add (F64.mul model.w0 (F64.ofInt x1)) model.b)
      (F64.ofInt MARGIN_WIDTH))) model.w1)
  let margin_y2 : Int := F64.toInt undef
    (F64.div (F64.neg (F64.add (F64.add (F64.mul model.w0 (F64.ofInt x2)) model.b)
      (F64.ofInt MARGIN_WIDTH))) model.w1)
  let upper ← draw_dashed_line undef (wrap32 (x1 + Int.tdiv WINDOW_WIDTH 2))
    (wrap32 (margin_y1 + Int.tdiv WINDOW_HEIGHT 2)) (wrap32 (x2 + Int.tdiv WINDOW_WIDTH 2))
    (wrap32 (margin_y2 + Int.tdiv WINDOW_HEIGHT 2)) 10
  -- Draw the lower margin line (lines 143-145)
  let margin_y1_lower : Int := F64.toInt undef
    (F64.div (F64.neg (F64.sub (F64.add (F64.mul model.w0 (F64.ofInt x1)) model.b)
      (F64.ofInt MARGIN_WIDTH))) model.w1)
  let margin_y2_lower : Int := F64.toInt undef
    (F64.div (F64.neg (F64.sub (F64.add (F64.mul model.w0 (F64.ofInt x2)) model.b)
      (F64.ofInt MARGIN_WIDTH))) model.w1)
  let lower ← draw_dashed_line undef (wrap32 (x1 + Int.tdiv WINDOW_WIDTH 2))
    (wrap32 (margin_y1_lower + Int.tdiv WINDOW_HEIGHT 2)) (wrap32 (x2 + Int.tdiv WINDOW_WIDTH 2))
    (wrap32 (margin_y2_lower + Int.tdiv WINDOW_HEIGHT 2)) 10
  -- Show the result and clean up (lines 148-154)
  let finish : List SDLCall :=
    [SDLCall.renderPresent, SDLCall.delay 5000, SDLCall.destroyRenderer,
     SDLCall.destroyWindow, SDLCall.quit]
  pure (setup ++ points ++ boundary ++ [SDLCall.setRenderDrawColor 0 0 0 255] ++ upper ++ lower
    ++ finish)

/-! ## The data generator and the driver (lines 25-42 and 157-172) -/

/-- The three arrays `generate_data` writes to, with the number of calls to
`rand()` made so far. -/
structure DataState where
  x : Nat → Int
  y : Nat → Int
  colors : Nat → Color
  calls : Nat

/-- The body of the first loop of `generate_data` (lines 31-33) at index `i`:
two calls to `rand()`, reduced with the remainder of C, and the red colour.
`rand k` is the value of the call number `k` of the run. -/
def generate_data_red (rand : Nat → Nat) (s : DataState) (i : Nat) : DataState :=
  { x := Function.update s.x i (Int.tmod (rand s.calls : Int) (Int.tdiv WINDOW_WIDTH 2))
    y := Function.update s.y i (Int.tmod (rand (s.calls + 1) : Int) (Int.tdiv WINDOW_HEIGHT 2))
    colors := Function.update s.colors i { r := 255, g := 0, b := 0 }
    calls := s.calls + 2 }

/-- The body of the second loop of `generate_data` (lines 38-40) at index
`i`. -/
def generate_data_blue (rand : Nat → Nat) (s : DataState) (i : Nat) : DataState :=
  { x := Function.update s.x i
      (Int.tmod (rand s.calls : Int) (Int.tdiv WINDOW_WIDTH 2) + Int.tdiv WINDOW_WIDTH 2)
    y := Function.update s.y i
      (Int.tmod (rand (s.calls + 1) : Int) (Int.tdiv WINDOW_HEIGHT 2) + Int.tdiv WINDOW_HEIGHT 2)
    colors := Function.update s.colors i { r := 0, g := 0, b := 255 }
    calls := s.calls + 2 }

/-- The `generate_data` function (lines 26-42): `x`, `y`, `colors` are the
arrays as the caller passes them; the first loop runs over
`0, ..., NUM_POINTS/2 - 1`, the second over `NUM_POINTS/2, ..., NUM_POINTS - 1`.
The seeding by `srand(time(NULL))` only decides which `rand` the run sees. -/
def generate_data (rand : Nat → Nat) (x y : Nat → Int) (colors : Nat → Color) : DataState :=
  let s0 : DataState := { x := x, y := y, colors := colors, calls := 0 }
  let s1 := (List.range (Int.tdiv NUM_POINTS 2).toNat).foldl (generate_data_red rand) s0
  (List.range' (Int.tdiv NUM_POINTS 2).toNat
    (NUM_POINTS - Int.tdiv NUM_POINTS 2).toNat).foldl (generate_data_blue rand) s1

/-- The `SDL_main` function (lines 158-172): the SDL calls made and the
value returned.  `x`, `y`, `colors`, `model` are the contents of the local
variables before they are written; the arrays `generate_data` filled are
handed to `train_svm` and to `visualize_svm` as they are, `y` in the place
of the fourth parameter of `train_svm`.  The literal `0.01` is the double
nearest to `1/100`. -/
def SDL_main (undef : Int) (rand : Nat → Nat) (x y : Nat → Int) (colors : Nat → Color)
    (model : SVMModel) : Option (List SDLCall) × Int :=
  let d := generate_data rand x y colors
  let model := train_svm model d.x d.y NUM_POINTS (F64.round false 1 100) 1000
  (visualize_svm undef d.x d.y d.colors NUM_POINTS model, 0)

/-! ## The dashed line on mathematical integers

The functions of this section are not functions of the program.  They follow
lines 96-109 on mathematical integers, without any reduction to 32 bits, and
give the values the program is compared with. -/

/-- The dash count on mathematical integers: the truncated quotient of the
integer square root of `dx*dx + dy*dy` by the dash length. -/
def dash_count_math (undef : Int) (dx dy dash_length : Int) : Int :=
  if dash_length = 0 then undef
  else Int.tdiv (Nat.sqrt (dx * dx + dy * dy).toNat : Int) dash_length

/-- Lines 101-108 on mathematical integers. -/
def draw_dashed_line_body_math (x1 y1 dx dy dash_count : Int) (i : Nat) : Option DashIter := do
  let q1 ← int_div ((i : Int) * dx) dash_count
  let start_x := x1 + q1
  let q2 ← int_div ((i : Int) * dy) dash_count
  let start_y := y1 + q2
  let q3 ← int_div (((i : Int) + 1) * dx) dash_count
  let end_x := x1 + q3
  let q4 ← int_div (((i : Int) + 1) * dy) dash_count
  let end_y := y1 + q4
  pure { i := i, start_x := start_x, start_y := start_y, end_x := end_x, end_y := end_y
         drawn := Int.tmod (i : Int) 2 == 0 }

/-- The loop of lines 100-109 on mathematical integers. -/
def draw_dashed_line_loop_math (x1 y1 dx dy dash_count : Int) :
    List Nat → Option (List DashIter)
  | [] => some []
  | i :: rest => do
    let it ← draw_dashed_line_body_math x1 y1 dx dy dash_count i
    let its ← draw_dashed_line_loop_math x1 y1 dx dy dash_count rest
    pure (it :: its)

/-- The iterations of lines 96-109 on mathematical integers. -/
def draw_dashed_line_iters_math (undef : Int) (x1 y1 x2 y2 dash_length : Int) :
    Option (List DashIter) :=
  let dx := x2 - x1
  let dy := y2 - y1
  let dash_count := dash_count_math undef dx dy dash_length
  draw_dashed_line_loop_math x1 y1 dx dy dash_count (List.range dash_count.toNat)

/-- The calls of lines 95-110 on mathematical integers. -/
def draw_dashed_line_math (undef : Int) (x1 y1 x2 y2 dash_length : Int) :
    Option (List SDLCall) :=
  (draw_dashed_line_iters_math undef x1 y1 x2 y2 dash_length).map fun its =>
    its.filterMap fun it =>
      if it.drawn then some (SDLCall.renderDrawLine it.start_x it.start_y it.end_x it.end_y)
      else none

/-! ## Observations on a list of SDL calls -/

/-- The arguments of an `SDL_RenderDrawLine` call, and nothing for any other
call. -/
def SDLCall.lineArgs : SDLCall → Option (Int × Int × Int × Int)
  | SDLCall.renderDrawLine x1 y1 x2 y2 => some (x1, y1, x2, y2)
  | _ => none

/-! ## Definitions used to state the properties

These are not functions of `sdl.cpp`: they name the values the theorems
below compare the program with. -/

/-- The first segment drawn in a list of calls, if a segment is drawn. -/
def first_line (calls : List SDLCall) : Option (Int × Int × Int × Int) :=
  calls.findSome? SDLCall.lineArgs

/-- The exact value of a finite double, as a rational number (`0` for an
infinity or a NaN). -/
def F64.toRat : F64 → ℚ
  | F64.zero _ => 0
  | F64.fin s m e => (if s then -1 else 1) * (m : ℚ) * (2 : ℚ) ^ e
  | F64.inf _ => 0
  | F64.nan => 0

/-- A double that is a zero or a finite non-zero value. -/
def F64.isFinite : F64 → Bool
  | F64.zero _ => true
  | F64.fin _ _ _ => true
  | F64.inf _ => false
  | F64.nan => false

/-- The margin of line 65 for a sample `(xi, yi)`, with the two steps of
`dot_product` written out: `yi * (((0.0 + w0 * xi) + w1 * yi) + b)`, every
operation a double operation. -/
def margin (model : SVMModel) (xi yi : Int) : F64 :=
  F64.mul (F64.ofInt yi)
    (F64.add
      (F64.add (F64.add (F64.zero false) (F64.mul model.w0 (F64.ofInt xi)))
        (F64.mul model.w1 (F64.ofInt yi)))
      model.b)

/-- The samples `i < n`, in increasing order, for which the test
`margin < 1` of line 66 succeeds. -/
def violators (model : SVMModel) (x y : Nat → Int) (n : Int) : List Nat :=
  (List.range n.toNat).filter fun i => F64.lt (margin model (x i) (y i)) (F64.ofInt 1)

/-- The double sum of the terms `f i` for `i` in `l`, accumulated from `0.0`
in the order of the list. -/
def fsum (l : List Nat) (f : Nat → F64) : F64 :=
  l.foldl (fun s i => F64.add s (f i)) (F64.zero false)

/-- The sub-segment of index `i` of a segment starting at `(x1, y1)` with
displacement `(dx, dy)` cut in `dc` parts, on mathematical integers with the
truncating division, and marked as drawn when `i` is even. -/
def dash_iter (x1 y1 dx dy dc : Int) (i : Nat) : DashIter :=
  { i := i
    start_x := x1 + Int.tdiv ((i : Int) * dx) dc
    start_y := y1 + Int.tdiv ((i : Int) * dy) dc
    end_x := x1 + Int.tdiv (((i : Int) + 1) * dx) dc
    end_y := y1 + Int.tdiv (((i : Int) + 1) * dy) dc
    drawn := i % 2 = 0 }

/-- The `SDL_RenderDrawLine` call for the sub-segment of index `i`, on
mathematical integers. -/
def dash_call (x1 y1 dx dy dc : Int) (i : Nat) : SDLCall :=
  SDLCall.renderDrawLine (x1 + Int.tdiv ((i : Int) * dx) dc) (y1 + Int.tdiv ((i : Int) * dy) dc)
    (x1 + Int.tdiv (((i : Int) + 1) * dx) dc) (y1 + Int.tdiv (((i : Int) + 1) * dy) dc)

/-- The strokes of a dashed line on mathematical integers: the calls for the
even indices below the dash count, in increasing order. -/
def dashed_strokes_math (undef x1 y1 x2 y2 D : Int) : List SDLCall :=
  ((List.range (dash_count_math undef (x2 - x1) (y2 - y1) D).toNat).filter
    (fun i => i % 2 = 0)).map
    (dash_call x1 y1 (x2 - x1) (y2 - y1) (dash_count_math undef (x2 - x1) (y2 - y1) D))

/-- The sub-segment of index `i` as the loop body computes it on 32-bit
integers when the dash count `dc` is not zero. -/
def sub_segment (x1 y1 dx dy dc : Int) (i : Nat) : DashIter :=
  { i := i
    start_x := wrap32 (x1 + wrap32 (Int.tdiv (wrap32 ((i : Int) * dx)) dc))
    start_y := wrap32 (y1 + wrap32 (Int.tdiv (wrap32 ((i : Int) * dy)) dc))
    end_x := wrap32 (x1 + wrap32 (Int.tdiv (wrap32 (wrap32 ((i : Int) + 1) * dx)) dc))
    end_y := wrap32 (y1 + wrap32 (Int.tdiv (wrap32 (wrap32 ((i : Int) + 1) * dy)) dc))
    drawn := i % 2 = 0 }

/-- The sub-segments the loop of `draw_dashed_line` goes through. -/
def sub_segments (undef x1 y1 x2 y2 D : Int) : List DashIter :=
  (List.range (dash_count undef (wrap32 (x2 - x1)) (wrap32 (y2 - y1)) D).toNat).map
    (sub_segment x1 y1 (wrap32 (x2 - x1)) (wrap32 (y2 - y1))
      (dash_count undef (wrap32 (x2 - x1)) (wrap32 (y2 - y1)) D))

/-- The strokes of a dashed line: the calls for the sub-segments of even
index, in increasing order. -/
def dashed_strokes (undef x1 y1 x2 y2 D : Int) : List SDLCall :=
  (sub_segments undef x1 y1 x2 y2 D).filterMap fun it =>
    if it.drawn then some (SDLCall.renderDrawLine it.start_x it.start_y it.end_x it.end_y)
    else none

/-- The calls of `visualize_svm` before the data points (lines 115-120). -/
def visualize_setup : List SDLCall :=
  [SDLCall.init, SDLCall.createWindow 640 480, SDLCall.createRenderer,
   SDLCall.setRenderDrawColor 255 255 255 255, SDLCall.renderClear]

/-- The calls of `visualize_svm` that draw the `n` data points (lines
123-127): a colour and a 10 by 10 rectangle each. -/
def visualize_points (x y : Nat → Int) (colors : Nat → Color) (n : Int) : List SDLCall :=
  (List.range n.toNat).flatMap fun i =>
    [SDLCall.setRenderDrawColor (colors i).r (colors i).g (colors i).b 255,
     SDLCall.renderFillRect (wrap32 (x i - 5)) (wrap32 (y i - 5)) 10 10]

/-- The calls of `visualize_svm` after the last dashed line (lines 148-154). -/
def visualize_finish : List SDLCall :=
  [SDLCall.renderPresent, SDLCall.delay 5000, SDLCall.destroyRenderer,
   SDLCall.destroyWindow, SDLCall.quit]

/-- The integer stored for `-(w0 * x + b) / w1`, with `c` in the place of the
bias `b`: every operation is a double operation and the quotient is converted
to `int`. -/
def line_y (undef : Int) (model : SVMModel) (x : Int) (c : F64) : Int :=
  F64.toInt undef (F64.div (F64.neg (F64.add (F64.mul model.w0 (F64.ofInt x)) c)) model.w1)

/-- The integer stored for `-(w0 * x + b + 40) / w1`: the offset is added to
the rounded sum `w0 * x + b`. -/
def upper_y (undef : Int) (model : SVMModel) (x : Int) : Int :=
  F64.toInt undef (F64.div (F64.neg (F64.add (F64.add (F64.mul model.w0 (F64.ofInt x)) model.b)
    (F64.ofInt 40))) model.w1)

/-- The integer stored for `-(w0 * x + b - 40) / w1`. -/
def lower_y (undef : Int) (model : SVMModel) (x : Int) : Int :=
  F64.toInt undef (F64.div (F64.neg (F64.sub (F64.add (F64.mul model.w0 (F64.ofInt x)) model.b)
    (F64.ofInt 40))) model.w1)

/-- The abscissas of the four-sample dataset `10, 20, 400, 410`. -/
def xs4 : Nat → Int := fun i => [10, 20, 400, 410].getD i 0

/-- The labels of the four-sample dataset: `+1, +1, -1, -1`. -/
def ls4 : Nat → Int := fun i => [1, 1, -1, -1].getD i 0

/-! ## Lemmas on doubles -/

theorem F64.log2_fuel_le (fuel n k : Nat) (h : n < 2 ^ k) : F64.log2_fuel fuel n ≤ k := by
  induction fuel generalizing n k with
  | zero => simp [F64.log2_fuel]
  | succ fuel ih =>
    unfold F64.log2_fuel
    split_ifs with h2
    · obtain ⟨j, rfl⟩ : ∃ j, k = j + 1 := by
        rcases k with _ | j
        · simp at h; omega
        · exact ⟨j, rfl⟩
      have hdiv : n / 2 < 2 ^ j := by
        rw [pow_succ] at h
        omega
      have := ih (n / 2) j hdiv
      omega
    · omega

/-- The exponent of the last place of `num / den` is at most that of `num`. -/
theorem F64.ulp_exp_le (num den k : Nat) (h : num < 2 ^ k) :
    F64.ulp_exp num den ≤ max ((k : Int) - 52) (-1074) := by
  have h1 : F64.log2 num ≤ k := F64.log2_fuel_le _ _ _ h
  unfold F64.ulp_exp F64.lead_exp
  simp only []
  apply max_le_max _ (le_refl _)
  split_ifs <;> omega

/-- The rounding of a quotient whose numerator is below `2^1000` does not
overflow. -/
theorem F64.round_isFinite (s : Bool) (num den : Nat) (h : num < 2 ^ 1000) :
    (F64.round s num den).isFinite = true := by
  have he := F64.ulp_exp_le num den 1000 h
  have he2 : F64.ulp_exp num den ≤ 948 := by
    have : max (((1000 : Nat) : Int) - 52) (-1074) = 948 := by decide
    omega
  unfold F64.round
  simp only []
  split_ifs
  all_goals first
    | rfl
    | omega

/-- An `int` converts to a finite double. -/
theorem F64.ofInt_isFinite (z : Int) (h : in_int z) : (F64.ofInt z).isFinite = true := by
  unfold F64.ofInt
  apply F64.round_isFinite
  unfold in_int at h
  have h1 : z.natAbs ≤ 2147483648 := by omega
  have h2 : (2147483648 : Nat) < 2 ^ 1000 := by norm_num
  omega

theorem F64.isFinite_cases (a : F64) (h : a.isFinite = true) :
    (∃ s, a = F64.zero s) ∨ ∃ s m e, a = F64.fin s m e := by
  cases a with
  | zero s => exact Or.inl ⟨s, rfl⟩
  | fin s m e => exact Or.inr ⟨s, m, e, rfl⟩
  | inf s => simp [F64.isFinite] at h
  | nan => simp [F64.isFinite] at h

theorem F64.ofInt_one : F64.ofInt 1 = F64.fin false 4503599627370496 (-52) := by decide!

/-- A quotient by a zero is an infinity or a NaN. -/
theorem F64.div_zero_cases (a : F64) (s : Bool) :
    (∃ t, F64.div a (F64.zero s) = F64.inf t) ∨ F64.div a (F64.zero s) = F64.nan := by
  cases a with
  | zero t => exact Or.inr rfl
  | fin t m e => exact Or.inl ⟨_, rfl⟩
  | inf t => exact Or.inl ⟨_, rfl⟩
  | nan => exact Or.inr rfl

/-- The conversion to `int` of a quotient by a zero is undefined. -/
theorem F64.toInt_div_zero (undef : Int) (a : F64) (s : Bool) :
    F64.toInt undef (F64.div a (F64.zero s)) = undef := by
  rcases F64.div_zero_cases a s with ⟨t, h⟩ | h <;> rw [h] <;> rfl

/-! ## Lemmas on the rounding -/

theorem wrap32_of_in_int (z : Int) (h : in_int z) : wrap32 z = z := by
  unfold in_int at h
  unfold wrap32
  omega

theorem wrap32_in_int (z : Int) : in_int (wrap32 z) := by
  unfold in_int wrap32
  omega

theorem wrap32_sub_mul (z j : Int) : wrap32 (z - 4294967296 * j) = wrap32 z := by
  unfold wrap32
  omega

/-- Reducing a factor before a product does not change the reduced product. -/
theorem wrap32_mul_wrap32 (a b : Int) : wrap32 (wrap32 a * b) = wrap32 (a * b) := by
  have h : wrap32 a = a - 4294967296 * ((a + 2147483648) / 4294967296) := by
    unfold wrap32
    omega
  rw [h, show (a - 4294967296 * ((a + 2147483648) / 4294967296)) * b =
    a * b - 4294967296 * (((a + 2147483648) / 4294967296) * b) by ring, wrap32_sub_mul]

/-- A product of two `int`s whose mathematical value fits in an `int` is
computed without loss, also when the first factor was negated on 32 bits. -/
theorem wrap32_neg_mul (a b : Int) (h : in_int (-a * b)) : wrap32 (wrap32 (-a) * b) = -a * b := by
  rw [wrap32_mul_wrap32, wrap32_of_in_int _ h]

/-! ## Lemmas on the trainer -/

theorem dot_product_two (a b : Nat → F64) :
    dot_product a b 2 =
      F64.add (F64.add (F64.zero false) (F64.mul (a 0) (b 0))) (F64.mul (a 1) (b 1)) := by
  rfl

/-- One step of the sample loop, with the margin written out. -/
theorem update_model_step_eq (model : SVMModel) (x y : Nat → Int) (g : Gradient) (i : Nat) :
    update_model_step model x y g i =
      if F64.lt (margin model (x i) (y i)) (F64.ofInt 1) then
        { dw0 := F64.add g.dw0 (F64.ofInt (wrap32 (wrap32 (-(y i)) * x i)))
          dw1 := F64.add g.dw1 (F64.ofInt (wrap32 (wrap32 (-(y i)) * y i)))
          db := F64.add g.db (F64.ofInt (wrap32 (-(y i)))) }
      else g := by
  rfl

/-- The sample loop accumulates, in the order of the indices, over the
samples that pass the test of line 66. -/
theorem update_model_foldl_eq (model : SVMModel) (x y : Nat → Int) (l : List Nat) (g : Gradient) :
    l.foldl (update_model_step model x y) g =
      { dw0 := (l.filter fun i => F64.lt (margin model (x i) (y i)) (F64.ofInt 1)).foldl
          (fun s i => F64.add s (F64.ofInt (wrap32 (wrap32 (-(y i)) * x i)))) g.dw0
        dw1 := (l.filter fun i => F64.lt (margin model (x i) (y i)) (F64.ofInt 1)).foldl
          (fun s i => F64.add s (F64.ofInt (wrap32 (wrap32 (-(y i)) * y i)))) g.dw1
        db := (l.filter fun i => F64.lt (margin model (x i) (y i)) (F64.ofInt 1)).foldl
          (fun s i => F64.add s (F64.ofInt (wrap32 (-(y i))))) g.db } := by
  induction l generalizing g with
  | nil => rfl
  | cons i rest ih =>
    rw [List.foldl_cons, ih, update_model_step_eq]
    cases h : F64.lt (margin model (x i) (y i)) (F64.ofInt 1)
    · simp [List.filter_cons, h]
    · simp [List.filter_cons, h]

theorem update_model_loop_eq (model : SVMModel) (x y : Nat → Int) (n : Int) :
    update_model_loop model x y n =
      { dw0 := fsum (violators model x y n) fun i => F64.ofInt (wrap32 (wrap32 (-(y i)) * x i))
        dw1 := fsum (violators model x y n) fun i => F64.ofInt (wrap32 (wrap32 (-(y i)) * y i))
        db := fsum (violators model x y n) fun i => F64.ofInt (wrap32 (-(y i))) } := by
  rw [update_model_loop, update_model_foldl_eq]
  rfl

theorem update_model_eq (model : SVMModel) (x y : Nat → Int) (n : Int) (rate : F64) :
    update_model model x y n rate =
      { w0 := F64.sub model.w0 (F64.mul rate (F64.add
          (fsum (violators model x y n) fun i => F64.ofInt (wrap32 (wrap32 (-(y i)) * x i)))
          model.w0))
        w1 := F64.sub model.w1 (F64.mul rate (F64.add
          (fsum (violators model x y n) fun i => F64.ofInt (wrap32 (wrap32 (-(y i)) * y i)))
          model.w1))
        b := F64.sub model.b (F64.mul rate
          (fsum (violators model x y n) fun i => F64.ofInt (wrap32 (-(y i))))) } := by
  simp only [update_model, update_model_loop_eq]

/-- A loop whose body ignores its index iterates the body. -/
theorem foldl_range_iterate {α : Type} (f : α → α) (k : Nat) (a : α) :
    (List.range k).foldl (fun m _ => f m) a = f^[k] a := by
  induction k with
  | zero => rfl
  | succ k ih =>
    rw [List.range_succ, List.foldl_append, ih, Function.iterate_succ_apply']
    rfl

theorem train_svm_eq_iterate (prior : SVMModel) (x y : Nat → Int) (n : Int) (rate : F64)
    (k : Nat) :
    train_svm prior x y n rate (k : Int) =
      (fun m => update_model m x y n rate)^[k]
        { w0 := F64.zero false, w1 := F64.zero false, b := F64.zero false } := by
  simp only [train_svm, Int.toNat_ofNat, foldl_range_iterate]

/-- For any iteration count, `train_svm` iterates `update_model` from the
zero model. -/
theorem train_svm_eq_iterate_toNat (prior : SVMModel) (x y : Nat → Int) (n : Int) (rate : F64)
    (k : Int) :
    train_svm prior x y n rate k =
      (fun m => update_model m x y n rate)^[k.toNat]
        { w0 := F64.zero false, w1 := F64.zero false, b := F64.zero false } := by
  simp only [train_svm, foldl_range_iterate]

theorem train_svm_one (prior : SVMModel) (x y : Nat → Int) (n : Int) (rate : F64) :
    train_svm prior x y n rate 1 =
      update_model { w0 := F64.zero false, w1 := F64.zero false, b := F64.zero false }
        x y n rate := by
  have h := train_svm_eq_iterate prior x y n rate 1
  simpa using h

/-- Under the zero model the margin of a sample of two `int`s is a zero,
which is below 1. -/
theorem margin_zero_model (xi yi : Int) (hx : in_int xi) (hy : in_int yi) :
    F64.lt (margin { w0 := F64.zero false, w1 := F64.zero false, b := F64.zero false } xi yi)
      (F64.ofInt 1) = true := by
  rw [F64.ofInt_one]
  rcases F64.isFinite_cases _ (F64.ofInt_isFinite xi hx) with ⟨s, hs⟩ | ⟨s, m, e, hs⟩ <;>
  rcases F64.isFinite_cases _ (F64.ofInt_isFinite yi hy) with ⟨t, ht⟩ | ⟨t, p, f, ht⟩ <;>
  simp [margin, hs, ht, F64.mul, F64.add, F64.lt]

/-- Under the zero model every sample passes the test of line 66. -/
theorem violators_zero_model (x y : Nat → Int) (n : Int)
    (h : ∀ i : Nat, (i : Int) < n → in_int (x i) ∧ in_int (y i)) :
    violators { w0 := F64.zero false, w1 := F64.zero false, b := F64.zero false } x y n =
      List.range n.toNat := by
  unfold violators
  rw [List.filter_eq_self]
  intro i hi
  have hlt : (i : Int) < n := by
    have := List.mem_range.mp hi
    omega
  exact margin_zero_model (x i) (y i) (h i hlt).1 (h i hlt).2

/-- With no sample (`n ≤ 0`) and a finite learning rate the zero model is a
fixed point of `update_model`. -/
theorem update_model_zero_of_no_sample (x y : Nat → Int) (n : Int) (hn : n ≤ 0) (rate : F64)
    (hr : rate.isFinite = true) :
    update_model { w0 := F64.zero false, w1 := F64.zero false, b := F64.zero false } x y n rate =
      { w0 := F64.zero false, w1 := F64.zero false, b := F64.zero false } := by
  have h : n.toNat = 0 := by omega
  rw [update_model_eq]
  simp only [violators, h, List.range_zero, List.filter_nil, fsum, List.foldl_nil]
  rcases F64.isFinite_cases rate hr with ⟨s, rfl⟩ | ⟨s, m, e, rfl⟩ <;>
  cases s <;> rfl

theorem iterate_fixed {α : Type} (f : α → α) (a : α) (h : f a = a) (k : Nat) : f^[k] a = a := by
  induction k with
  | zero => rfl
  | succ k ih => rw [Function.iterate_succ_apply', ih, h]

/-- With a negative or zero iteration count the loop of `train_svm` does not
run. -/
theorem train_svm_of_nonpos_iter (prior : SVMModel) (x y : Nat → Int) (n : Int) (rate : F64)
    (k : Int) (hk : k ≤ 0) :
    train_svm prior x y n rate k =
      { w0 := F64.zero false, w1 := F64.zero false, b := F64.zero false } := by
  have h : k.toNat = 0 := by omega
  simp [train_svm, h]

/-- With no sample and an infinite or NaN learning rate one `update_model`
turns the zero model into NaNs. -/
theorem update_model_zero_of_no_sample_nan (x y : Nat → Int) (n : Int) (hn : n ≤ 0) (rate : F64)
    (hr : rate.isFinite = false) :
    update_model { w0 := F64.zero false, w1 := F64.zero false, b := F64.zero false } x y n rate =
      { w0 := F64.nan, w1 := F64.nan, b := F64.nan } := by
  have h : n.toNat = 0 := by omega
  rw [update_model_eq]
  simp only [violators, h, List.range_zero, List.filter_nil, fsum, List.foldl_nil]
  cases rate with
  | zero s => simp [F64.isFinite] at hr
  | fin s m e => simp [F64.isFinite] at hr
  | inf s => rfl
  | nan => rfl

/-- With no sample and an infinite or NaN learning rate the model of NaNs is
a fixed point of `update_model`. -/
theorem update_model_nan_of_no_sample (x y : Nat → Int) (n : Int) (hn : n ≤ 0) (rate : F64)
    (hr : rate.isFinite = false) :
    update_model { w0 := F64.nan, w1 := F64.nan, b := F64.nan } x y n rate =
      { w0 := F64.nan, w1 := F64.nan, b := F64.nan } := by
  have h : n.toNat = 0 := by omega
  rw [update_model_eq]
  simp only [violators, h, List.range_zero, List.filter_nil, fsum, List.foldl_nil]
  cases rate with
  | zero s => simp [F64.isFinite] at hr
  | fin s m e => simp [F64.isFinite] at hr
  | inf s => rfl
  | nan => rfl

/-- Under the model `w = (0, 1)`, `b = 0` the sample `x = 0`, `label = 1` has
a margin that does not compare below 1. -/
theorem margin_one_example :
    F64.lt (margin { w0 := F64.zero false, w1 := F64.ofInt 1, b := F64.zero false } 0 1)
      (F64.ofInt 1) = false := by
  decide!

/-! ## The claims on the trainer -/

/-- C1, amended. One call of `update_model` on any model, dataset and learning
rate gives `w0 - rate * (S0 + w0)`, `w1 - rate * (S1 + w1)` and
`b - rate * Sb`, every operation being the double operation of the code in
the order of the code.  `S0`, `S1`, `Sb` are the double sums, accumulated
from `0.0` in increasing order of the index, of the `int` values
`-label * x`, `-label * label` and `-label` (computed on 32 bits) over
exactly the samples `i < n` whose margin as the code computes it in doubles,
`label * (((0.0 + w0 * x) + w1 * label) + b)`, compares below 1; the bias
gets no regularization term.  The 32-bit values are the mathematical ones
whenever these lie in the range of `int`. -/
theorem C1_update_model_subgradient (model : SVMModel) (x y : Nat → Int) (n : Int) (rate : F64) :
    update_model model x y n rate =
      { w0 := F64.sub model.w0 (F64.mul rate (F64.add
          (fsum (violators model x y n) fun i => F64.ofInt (wrap32 (wrap32 (-(y i)) * x i)))
          model.w0))
        w1 := F64.sub model.w1 (F64.mul rate (F64.add
          (fsum (violators model x y n) fun i => F64.ofInt (wrap32 (wrap32 (-(y i)) * y i)))
          model.w1))
        b := F64.sub model.b (F64.mul rate
          (fsum (violators model x y n) fun i => F64.ofInt (wrap32 (-(y i))))) } ∧
    (∀ i : Nat, in_int (-(y i) * x i) → wrap32 (wrap32 (-(y i)) * x i) = -(y i) * x i) ∧
    (∀ i : Nat, in_int (-(y i) * y i) → wrap32 (wrap32 (-(y i)) * y i) = -(y i) * y i) ∧
    (∀ i : Nat, in_int (-(y i)) → wrap32 (-(y i)) = -(y i)) :=
  ⟨update_model_eq model x y n rate, fun i h => wrap32_neg_mul (y i) (x i) h,
    fun i h => wrap32_neg_mul (y i) (y i) h, fun _ h => wrap32_of_in_int _ h⟩

/-- C1 as stated fails: for the single sample `x = 100000`, `label = 100000`
under the zero model with rate `1.0`, the `int` product `-label * x` is
`-1410065408` on 32 bits, and `update_model` returns `w0 = w1 = 1410065408`,
where the formula of the claim, with the sum `-label * x = -10000000000`,
gives `10000000000`. -/
theorem C1_update_model_subgradient_counterexample :
    update_model { w0 := F64.zero false, w1 := F64.zero false, b := F64.zero false }
        (fun _ => 100000) (fun _ => 100000) 1 (F64.ofInt 1) =
      { w0 := F64.ofInt 1410065408, w1 := F64.ofInt 1410065408, b := F64.ofInt 100000 } ∧
    F64.sub (F64.zero false)
        (F64.mul (F64.ofInt 1) (F64.add (F64.zero false) (F64.ofInt (-100000 * 100000)))) =
      F64.ofInt 10000000000 ∧
    F64.ofInt 1410065408 ≠ F64.ofInt 10000000000 := by
  refine ⟨?_, ?_, ?_⟩ <;> decide!

/-- C2. Whatever the model held before, `train_svm` with an iteration count
`k ≥ 0` returns `update_model` applied exactly `k` times to the model
`w = (0, 0)`, `b = 0`; with `k = 0` it returns `w = (0, 0)`, `b = 0`. -/
theorem C2_train_svm_iterates (prior : SVMModel) (x y : Nat → Int) (n : Int) (rate : F64)
    (k : Nat) :
    train_svm prior x y n rate (k : Int) =
        (fun m => update_model m x y n rate)^[k]
          { w0 := F64.zero false, w1 := F64.zero false, b := F64.zero false } ∧
      train_svm prior x y n rate 0 =
        { w0 := F64.zero false, w1 := F64.zero false, b := F64.zero false } :=
  ⟨train_svm_eq_iterate prior x y n rate k, by simp [train_svm]⟩

/-- C3, amended. When for every sample of the dataset the test of line 66
fails, that is, the margin as the code computes it in doubles does not
compare below 1, one `update_model` gives `w0 - rate * (0.0 + w0)`,
`w1 - rate * (0.0 + w1)` and `b - rate * 0.0` in double arithmetic.  The bias
is unchanged when the rate is a zero or a finite value with the sign bit
clear. -/
theorem C3_update_model_regularization_only (model : SVMModel) (x y : Nat → Int) (n : Int)
    (rate : F64)
    (h : ∀ i : Nat, (i : Int) < n →
      F64.lt (margin model (x i) (y i)) (F64.ofInt 1) = false) :
    update_model model x y n rate =
      { w0 := F64.sub model.w0 (F64.mul rate (F64.add (F64.zero false) model.w0))
        w1 := F64.sub model.w1 (F64.mul rate (F64.add (F64.zero false) model.w1))
        b := F64.sub model.b (F64.mul rate (F64.zero false)) } ∧
    ((rate = F64.zero false ∨ ∃ m e, rate = F64.fin false m e) →
      (update_model model x y n rate).b = model.b) := by
  have hempty : violators model x y n = [] := by
    unfold violators
    rw [List.filter_eq_nil_iff]
    intro i hi
    have hlt : (i : Int) < n := by
      have := List.mem_range.mp hi
      omega
    simp [h i hlt]
  have heq : update_model model x y n rate =
      { w0 := F64.sub model.w0 (F64.mul rate (F64.add (F64.zero false) model.w0))
        w1 := F64.sub model.w1 (F64.mul rate (F64.add (F64.zero false) model.w1))
        b := F64.sub model.b (F64.mul rate (F64.zero false)) } := by
    rw [update_model_eq, hempty]
    rfl
  refine ⟨heq, ?_⟩
  intro hr
  rw [heq]
  rcases hr with rfl | ⟨m, e, rfl⟩ <;> cases model.b <;> simp [F64.mul, F64.sub, F64.neg, F64.add]

/-- Witness of C3: the one-sample dataset `x = 0`, `label = 1` under the model
`w = (0, 1)`, `b = 0` has margin `1.0`, and the update with rate `0.01`. -/
theorem C3_update_model_regularization_only_witness :
    (∀ i : Nat, (i : Int) < 1 →
      F64.lt (margin { w0 := F64.zero false, w1 := F64.ofInt 1, b := F64.zero false }
        ((fun _ => 0 : Nat → Int) i) ((fun _ => 1 : Nat → Int) i)) (F64.ofInt 1) = false) ∧
    (update_model { w0 := F64.zero false, w1 := F64.ofInt 1, b := F64.zero false }
        (fun _ => 0) (fun _ => 1) 1 (F64.round false 1 100) =
      { w0 := F64.sub (F64.zero false)
          (F64.mul (F64.round false 1 100) (F64.add (F64.zero false) (F64.zero false)))
        w1 := F64.sub (F64.ofInt 1)
          (F64.mul (F64.round false 1 100) (F64.add (F64.zero false) (F64.ofInt 1)))
        b := F64.sub (F64.zero false) (F64.mul (F64.round false 1 100) (F64.zero false)) } ∧
    ((F64.round false 1 100 = F64.zero false ∨ ∃ m e, F64.round false 1 100 = F64.fin false m e) →
      (update_model { w0 := F64.zero false, w1 := F64.ofInt 1, b := F64.zero false }
        (fun _ => 0) (fun _ => 1) 1 (F64.round false 1 100)).b = F64.zero false)) :=
  ⟨fun _ _ => margin_one_example,
   C3_update_model_regularization_only
    { w0 := F64.zero false, w1 := F64.ofInt 1, b := F64.zero false } (fun _ => 0) (fun _ => 1) 1
    (F64.round false 1 100) (fun _ _ => margin_one_example)⟩

/-- C3 as stated fails: for the model `w0 = 3002399751580331`,
`w1 = -9007199254740992`, `b = 0` and the single sample `x = 3`, `label = 1`
the margin is exactly `1`, but the product `w0 * 3 = 9007199254740993` is
rounded to `9007199254740992`, the margin the code computes is `0.0`, the
sample contributes, and with rate `0.5` the bias moves from `0` to `0.5`
and `w0` goes to `1501199875790167`, where `(1 - 0.5) * w0` is
`1501199875790165.5`. -/
theorem C3_update_model_regularization_only_counterexample :
    (1 : ℚ) ≤ 1 * (F64.toRat (F64.fin false 6004799503160662 (-1)) * 3 +
      F64.toRat (F64.fin true 4503599627370496 1) * 1 + F64.toRat (F64.zero false)) ∧
    F64.ofInt 3002399751580331 = F64.fin false 6004799503160662 (-1) ∧
    F64.ofInt (-9007199254740992) = F64.fin true 4503599627370496 1 ∧
    margin
        { w0 := F64.fin false 6004799503160662 (-1)
          w1 := F64.fin true 4503599627370496 1
          b := F64.zero false } 3 1 = F64.zero false ∧
    update_model
        { w0 := F64.fin false 6004799503160662 (-1)
          w1 := F64.fin true 4503599627370496 1
          b := F64.zero false }
        (fun _ => 3) (fun _ => 1) 1 (F64.round false 1 2) =
      { w0 := F64.fin false 6004799503160668 (-2)
        w1 := F64.fin true 4503599627370496 0
        b := F64.round false 1 2 } ∧
    F64.round false 1 2 ≠ F64.zero false ∧
    F64.mul (F64.sub (F64.ofInt 1) (F64.round false 1 2))
        (F64.fin false 6004799503160662 (-1)) =
      F64.fin false 6004799503160662 (-2) := by
  refine ⟨?_, ?_, ?_, ?_, ?_, ?_, ?_⟩
  · norm_num [F64.toRat]
  all_goals decide!

/-- C4, amended. With `max_iter = 1` and a dataset of `int`s, every sample
passes the test of line 66 under the zero model (its margin is a zero), and
`train_svm` returns `w0 = 0.0 - rate * (D0 + 0.0)`,
`w1 = 0.0 - rate * (D1 + 0.0)`, `b = 0.0 - rate * Db` in double arithmetic,
where `D0`, `D1`, `Db` are the double sums, accumulated from `0.0` in
increasing order of the index, of the `int` values `-label * x`,
`-label * label` and `-label` (computed on 32 bits) over all the samples.
For `x = [10, 20, 400, 410]`, labels `[+1, +1, -1, -1]` and rate `0.01` the
accumulators are `780`, `-4`, `0` and the model is the double nearest to
`-7.8`, the double nearest to `0.04`, and `0`. -/
theorem C4_train_svm_first_iteration :
    (∀ (prior : SVMModel) (x y : Nat → Int) (n : Int) (rate : F64),
      (∀ i : Nat, (i : Int) < n → in_int (x i) ∧ in_int (y i)) →
      violators { w0 := F64.zero false, w1 := F64.zero false, b := F64.zero false } x y n =
        List.range n.toNat ∧
      train_svm prior x y n rate 1 =
        { w0 := F64.sub (F64.zero false) (F64.mul rate (F64.add
            (fsum (List.range n.toNat) fun i => F64.ofInt (wrap32 (wrap32 (-(y i)) * x i)))
            (F64.zero false)))
          w1 := F64.sub (F64.zero false) (F64.mul rate (F64.add
            (fsum (List.range n.toNat) fun i => F64.ofInt (wrap32 (wrap32 (-(y i)) * y i)))
            (F64.zero false)))
          b := F64.sub (F64.zero false) (F64.mul rate
            (fsum (List.range n.toNat) fun i => F64.ofInt (wrap32 (-(y i))))) }) ∧
    update_model_loop { w0 := F64.zero false, w1 := F64.zero false, b := F64.zero false }
        xs4 ls4 4 =
      { dw0 := F64.ofInt 780, dw1 := F64.ofInt (-4), db := F64.zero false } ∧
    (∀ prior : SVMModel,
      train_svm prior xs4 ls4 4 (F64.round false 1 100) 1 =
        { w0 := F64.round true 78 10, w1 := F64.round false 4 100, b := F64.zero false }) := by
  refine ⟨?_, ?_, ?_⟩
  · intro prior x y n rate h
    have hv := violators_zero_model x y n h
    refine ⟨hv, ?_⟩
    rw [train_svm_one, update_model_eq, hv]
  · decide!
  · intro prior
    rw [train_svm_one]
    decide!

/-- C4 as stated fails: for the single sample `x = 65536`, `label = 65536`
and rate `1.0` the `int` products `-label * x` and `-label * label` are `0`
on 32 bits, and `train_svm` with one iteration returns `w0 = w1 = 0`, where
`rate * Σ label * x` is `4294967296`. -/
theorem C4_train_svm_first_iteration_counterexample :
    train_svm { w0 := F64.nan, w1 := F64.nan, b := F64.nan } (fun _ => 65536) (fun _ => 65536)
        1 (F64.ofInt 1) 1 =
      { w0 := F64.zero false, w1 := F64.zero false, b := F64.ofInt 65536 } ∧
    F64.mul (F64.ofInt 1) (F64.ofInt (65536 * 65536)) = F64.ofInt 4294967296 ∧
    F64.ofInt 4294967296 ≠ F64.zero false := by
  refine ⟨?_, ?_, ?_⟩ <;> decide!

/-- C11, amended. The function `train_svm` checks none of its arguments and
always returns a model: with an iteration count `k ≤ 0` the loop does not
run and the model is `w = (0, 0)`, `b = 0`; with `n ≤ 0` samples the model is
again `w = (0, 0)`, `b = 0` whatever the finite rate and the count (and three
NaNs for an infinite or NaN rate and a count `k ≥ 1`); and for any learning
rate, positive or not, the model is `update_model` iterated `k` times from
`w = (0, 0)`, `b = 0`. -/
theorem C11_train_svm_no_validation (prior : SVMModel) (x y : Nat → Int) (rate : F64) :
    (∀ (n k : Int), k ≤ 0 → train_svm prior x y n rate k =
      { w0 := F64.zero false, w1 := F64.zero false, b := F64.zero false }) ∧
    (∀ (n k : Int), n ≤ 0 → rate.isFinite = true → train_svm prior x y n rate k =
      { w0 := F64.zero false, w1 := F64.zero false, b := F64.zero false }) ∧
    (∀ (n k : Int), n ≤ 0 → rate.isFinite = false → 1 ≤ k → train_svm prior x y n rate k =
      { w0 := F64.nan, w1 := F64.nan, b := F64.nan }) ∧
    (∀ (n : Int) (k : Nat), train_svm prior x y n rate (k : Int) =
      (fun m => update_model m x y n rate)^[k]
        { w0 := F64.zero false, w1 := F64.zero false, b := F64.zero false }) := by
  refine ⟨?_, ?_, ?_, ?_⟩
  · intro n k hk
    exact train_svm_of_nonpos_iter prior x y n rate k hk
  · intro n k hn hr
    rw [train_svm_eq_iterate_toNat]
    exact iterate_fixed _ _ (update_model_zero_of_no_sample x y n hn rate hr) _
  · intro n k hn hr hk
    obtain ⟨j, hj⟩ : ∃ j : Nat, k.toNat = j + 1 := ⟨k.toNat - 1, by omega⟩
    rw [train_svm_eq_iterate_toNat, hj, Function.iterate_succ_apply,
      update_model_zero_of_no_sample_nan x y n hn rate hr]
    exact iterate_fixed _ _ (update_model_nan_of_no_sample x y n hn rate hr) _
  · intro n k
    exact train_svm_eq_iterate prior x y n rate k

/-- C11 as stated fails: `train_svm` returns a model for an empty dataset
(`n = 0`), for the negative learning rate `-0.01` (where the loop has run:
the model is not the initial one) and for the iteration count `-3`. -/
theorem C11_train_svm_no_validation_counterexample :
    train_svm { w0 := F64.ofInt 5, w1 := F64.ofInt 5, b := F64.ofInt 5 } xs4 ls4 0
        (F64.round false 1 100) 1 =
      { w0 := F64.zero false, w1 := F64.zero false, b := F64.zero false } ∧
    train_svm { w0 := F64.ofInt 5, w1 := F64.ofInt 5, b := F64.ofInt 5 } xs4 ls4 4
        (F64.round true 1 100) 1 =
      { w0 := F64.round false 78 10, w1 := F64.round true 4 100, b := F64.zero false } ∧
    train_svm { w0 := F64.ofInt 5, w1 := F64.ofInt 5, b := F64.ofInt 5 } xs4 ls4 4
        (F64.round false 1 100) (-3) =
      { w0 := F64.zero false, w1 := F64.zero false, b := F64.zero false } := by
  refine ⟨?_, ?_, ?_⟩ <;> decide!

/-- C13. Two runs of `train_svm` on the same dataset, learning rate and
iteration count return the same model, whatever the two models held
before. -/
theorem C13_train_svm_independent_of_prior (prior1 prior2 : SVMModel) (x y : Nat → Int)
    (n : Int) (rate : F64) (k : Int) :
    train_svm prior1 x y n rate k = train_svm prior2 x y n rate k := by
  rw [train_svm_eq_iterate_toNat prior1, train_svm_eq_iterate_toNat prior2]

/-! ## The sign of the second weight after the first iteration -/

theorem int_div_of_ne_zero (a b : Int) (hb : b ≠ 0) : int_div a b = some (Int.tdiv a b) := by
  simp [int_div, hb]

theorem tmod_two_beq (i : Nat) : (Int.tmod (i : Int) 2 == 0) = decide (i % 2 = 0) := by
  have h2 : Int.tmod (i : Int) 2 = ((i % 2 : Nat) : Int) := (Int.ofNat_tmod i 2).symm
  rw [h2]
  rcases Nat.mod_two_eq_zero_or_one i with h | h <;> simp [h]

theorem draw_dashed_line_body_eq (x1 y1 dx dy dc : Int) (hdc : dc ≠ 0) (i : Nat) :
    draw_dashed_line_body x1 y1 dx dy dc i = some (sub_segment x1 y1 dx dy dc i) := by
  simp [draw_dashed_line_body, int_div_of_ne_zero _ _ hdc, sub_segment, tmod_two_beq]

theorem draw_dashed_line_loop_eq (x1 y1 dx dy dc : Int) (hdc : dc ≠ 0) (l : List Nat) :
    draw_dashed_line_loop x1 y1 dx dy dc l = some (l.map (sub_segment x1 y1 dx dy dc)) := by
  induction l with
  | nil => rfl
  | cons i rest ih => simp [draw_dashed_line_loop, draw_dashed_line_body_eq _ _ _ _ _ hdc, ih]

/-- The loop of `draw_dashed_line` always runs to its end: no division by
zero happens, whatever the arguments. -/
theorem draw_dashed_line_iters_eq (undef x1 y1 x2 y2 D : Int) :
    draw_dashed_line_iters undef x1 y1 x2 y2 D = some (sub_segments undef x1 y1 x2 y2 D) := by
  simp only [draw_dashed_line_iters, sub_segments]
  by_cases h : dash_count undef (wrap32 (x2 - x1)) (wrap32 (y2 - y1)) D = 0
  · simp [h, draw_dashed_line_loop]
  · exact draw_dashed_line_loop_eq _ _ _ _ _ h _

theorem draw_dashed_line_eq_strokes (undef x1 y1 x2 y2 D : Int) :
    draw_dashed_line undef x1 y1 x2 y2 D = some (dashed_strokes undef x1 y1 x2 y2 D) := by
  simp only [draw_dashed_line, draw_dashed_line_iters_eq, Option.map_some', dashed_strokes]

theorem draw_dashed_line_body_math_eq (x1 y1 dx dy dc : Int) (hdc : dc ≠ 0) (i : Nat) :
    draw_dashed_line_body_math x1 y1 dx dy dc i = some (dash_iter x1 y1 dx dy dc i) := by
  simp [draw_dashed_line_body_math, int_div_of_ne_zero _ _ hdc, dash_iter, tmod_two_beq]

theorem draw_dashed_line_loop_math_eq (x1 y1 dx dy dc : Int) (hdc : dc ≠ 0) (l : List Nat) :
    draw_dashed_line_loop_math x1 y1 dx dy dc l = some (l.map (dash_iter x1 y1 dx dy dc)) := by
  induction l with
  | nil => rfl
  | cons i rest ih =>
    simp [draw_dashed_line_loop_math, draw_dashed_line_body_math_eq _ _ _ _ _ hdc, ih]

theorem draw_dashed_line_iters_math_eq (undef x1 y1 x2 y2 D : Int) :
    draw_dashed_line_iters_math undef x1 y1 x2 y2 D =
      some ((List.range (dash_count_math undef (x2 - x1) (y2 - y1) D).toNat).map
        (dash_iter x1 y1 (x2 - x1) (y2 - y1) (dash_count_math undef (x2 - x1) (y2 - y1) D))) := by
  simp only [draw_dashed_line_iters_math]
  by_cases h : dash_count_math undef (x2 - x1) (y2 - y1) D = 0
  · simp [h, draw_dashed_line_loop_math]
  · exact draw_dashed_line_loop_math_eq _ _ _ _ _ h _

theorem draw_dashed_line_math_eq (undef x1 y1 x2 y2 D : Int) :
    draw_dashed_line_math undef x1 y1 x2 y2 D = some (dashed_strokes_math undef x1 y1 x2 y2 D) := by
  simp only [draw_dashed_line_math, draw_dashed_line_iters_math_eq, Option.map_some',
    dashed_strokes_math]
  congr 1
  generalize List.range (dash_count_math undef (x2 - x1) (y2 - y1) D).toNat = l
  induction l with
  | nil => rfl
  | cons i rest ih =>
    by_cases h : i % 2 = 0
    · simp [List.filterMap_cons, List.filter_cons, h, dash_iter, dash_call, ← ih]
    · simp [List.filterMap_cons, List.filter_cons, h, dash_iter, ← ih]

theorem length_filter_even_range (k : Nat) :
    ((List.range k).filter (fun i => i % 2 = 0)).length = (k + 1) / 2 := by
  induction k with
  | zero => rfl
  | succ k ih =>
    rw [List.range_succ, List.filter_append, List.length_append, ih]
    by_cases h : k % 2 = 0
    · simp [List.filter_cons, h]; omega
    · simp [List.filter_cons, h]; omega

/-- The real number `sqrt(n) / D`, floored, is the integer quotient of the
integer square root, for a dash length `D ≥ 1`. -/
theorem floor_sqrt_div (n D : Nat) (hD : 1 ≤ D) :
    ⌊Real.sqrt (n : ℝ) / (D : ℝ)⌋ = ((Nat.sqrt n / D : Nat) : Int) := by
  have h0 : 0 ≤ Real.sqrt (n : ℝ) / (D : ℝ) := by positivity
  have h1 : ⌊Real.sqrt (n : ℝ) / (D : ℝ)⌋₊ = Nat.sqrt n / D := by
    rw [Nat.floor_div_nat, Real.nat_floor_real_sqrt_eq_nat_sqrt]
  rw [← h1]
  exact (Int.natCast_floor_eq_floor h0).symm

theorem sq_sum_toNat (dx dy : Int) :
    (((dx * dx + dy * dy).toNat : Nat) : ℝ) = ((dx : ℝ)) ^ 2 + ((dy : ℝ)) ^ 2 := by
  have h : 0 ≤ dx * dx + dy * dy := by nlinarith [mul_self_nonneg dx, mul_self_nonneg dy]
  have h2 : (((dx * dx + dy * dy).toNat : Nat) : Int) = dx * dx + dy * dy := Int.toNat_of_nonneg h
  have h3 : ((((dx * dx + dy * dy).toNat : Nat) : Int) : ℝ) = ((dx * dx + dy * dy : Int) : ℝ) := by
    rw [h2]
  push_cast at h3
  rw [h3]; ring

/-- For a dash length `D ≥ 1`, the dash count on mathematical integers is the
floor of the Euclidean length of the segment divided by `D`. -/
theorem dash_count_math_eq_floor (undef x1 y1 x2 y2 D : Int) (hD : 1 ≤ D) :
    dash_count_math undef (x2 - x1) (y2 - y1) D =
      ⌊Real.sqrt (((x2 : ℝ) - x1) ^ 2 + ((y2 : ℝ) - y1) ^ 2) / (D : ℝ)⌋ := by
  obtain ⟨d, rfl⟩ : ∃ d : Nat, D = (d : Int) := ⟨D.toNat, (Int.toNat_of_nonneg (by omega)).symm⟩
  have hd : 1 ≤ d := by omega
  have hne : ((d : Int)) ≠ 0 := by omega
  have key := floor_sqrt_div ((x2 - x1) * (x2 - x1) + (y2 - y1) * (y2 - y1)).toNat d hd
  rw [sq_sum_toNat] at key
  push_cast at key
  simp only [dash_count_math, hne, if_false]
  rw [Int.cast_natCast, key]
  exact (Int.ofNat_tdiv _ _).symm

theorem ceil_half (k : Nat) : ⌈((k : Int) : ℝ) / 2⌉ = (((k + 1) / 2 : Nat) : Int) := by
  rw [Int.ceil_eq_iff]
  rcases Nat.even_or_odd' k with ⟨m, rfl | rfl⟩
  · have h : (2 * m + 1) / 2 = m := by omega
    rw [h]; push_cast; constructor <;> linarith
  · have h : (2 * m + 1 + 1) / 2 = m + 1 := by omega
    rw [h]; push_cast; constructor <;> linarith

theorem dashed_strokes_math_length (undef x1 y1 x2 y2 D : Int) :
    (dashed_strokes_math undef x1 y1 x2 y2 D).length =
      ((dash_count_math undef (x2 - x1) (y2 - y1) D).toNat + 1) / 2 := by
  simp [dashed_strokes_math, length_filter_even_range]

theorem nat_sqrt_eq (n a : Nat) (h1 : a * a ≤ n) (h2 : n < (a + 1) * (a + 1)) :
    Nat.sqrt n = a :=
  (Nat.eq_sqrt.mpr ⟨h1, h2⟩).symm

/-! ## Lemmas on the range of the dashed line -/

/-- The truncated quotient of `a * d` by `dc`, for `0 ≤ a ≤ dc`, lies between
`0` and `d`. -/
theorem tdiv_mul_between (a d dc : Int) (ha0 : 0 ≤ a) (ha : a ≤ dc) (hdc : 0 < dc) :
    (0 ≤ d → 0 ≤ Int.tdiv (a * d) dc ∧ Int.tdiv (a * d) dc ≤ d ∧ Int.tdiv (a * d) dc ≤ a * d) ∧
    (d ≤ 0 → d ≤ Int.tdiv (a * d) dc ∧ Int.tdiv (a * d) dc ≤ 0 ∧ a * d ≤ Int.tdiv (a * d) dc) := by
  have hpos : ∀ p : Int, 0 ≤ p →
      0 ≤ Int.tdiv (a * p) dc ∧ Int.tdiv (a * p) dc ≤ p ∧ Int.tdiv (a * p) dc ≤ a * p := by
    intro p hp
    have hap : 0 ≤ a * p := mul_nonneg ha0 hp
    rw [Int.tdiv_eq_ediv hap hdc.le]
    refine ⟨Int.ediv_nonneg hap hdc.le, ?_, Int.ediv_le_self dc hap⟩
    apply Int.ediv_le_of_le_mul hdc
    nlinarith
  constructor
  · intro hd
    exact hpos d hd
  · intro hd
    have h := hpos (-d) (by omega)
    have e : a * d = -(a * -d) := by ring
    rw [e, Int.neg_tdiv]
    omega

/-- A product of two integers bounded by `r` in absolute value is bounded by
`r * r`. -/
theorem mul_abs_le (a d r : Int) (ha0 : 0 ≤ a) (ha : a ≤ r) (hd0 : -r ≤ d) (hd : d ≤ r) :
    -(r * r) ≤ a * d ∧ a * d ≤ r * r := by
  constructor <;> nlinarith

/-- When the squared length of the segment fits in an `int`, the differences,
the squares and the integer square root are bounded. -/
theorem sq_len_bounds (dx dy : Int) (hlen : dx * dx + dy * dy ≤ 2147483647) :
    0 ≤ dx * dx ∧ 0 ≤ dy * dy ∧ dx * dx ≤ 2147483647 ∧ dy * dy ≤ 2147483647 ∧
    -46340 ≤ dx ∧ dx ≤ 46340 ∧ -46340 ≤ dy ∧ dy ≤ 46340 ∧
    ((Nat.sqrt (dx * dx + dy * dy).toNat : Nat) : Int) *
      ((Nat.sqrt (dx * dx + dy * dy).toNat : Nat) : Int) ≤ dx * dx + dy * dy ∧
    -((Nat.sqrt (dx * dx + dy * dy).toNat : Nat) : Int) ≤ dx ∧
    dx ≤ ((Nat.sqrt (dx * dx + dy * dy).toNat : Nat) : Int) ∧
    -((Nat.sqrt (dx * dx + dy * dy).toNat : Nat) : Int) ≤ dy ∧
    dy ≤ ((Nat.sqrt (dx * dx + dy * dy).toNat : Nat) : Int) := by
  have hx : 0 ≤ dx * dx := mul_self_nonneg dx
  have hy : 0 ≤ dy * dy := mul_self_nonneg dy
  have hs : 0 ≤ dx * dx + dy * dy := by omega
  have hcast : (((dx * dx + dy * dy).toNat : Nat) : Int) = dx * dx + dy * dy :=
    Int.toNat_of_nonneg hs
  have hr : ((Nat.sqrt (dx * dx + dy * dy).toNat : Nat) : Int) *
      ((Nat.sqrt (dx * dx + dy * dy).toNat : Nat) : Int) ≤ dx * dx + dy * dy := by
    have h := Nat.sqrt_le (dx * dx + dy * dy).toNat
    have h' : ((Nat.sqrt (dx * dx + dy * dy).toNat * Nat.sqrt (dx * dx + dy * dy).toNat : Nat) : Int)
        ≤ (((dx * dx + dy * dy).toNat : Nat) : Int) := by exact_mod_cast h
    rw [hcast] at h'
    push_cast at h'
    exact h'
  have habs : ∀ d : Int, d * d ≤ dx * dx + dy * dy →
      -((Nat.sqrt (dx * dx + dy * dy).toNat : Nat) : Int) ≤ d ∧
      d ≤ ((Nat.sqrt (dx * dx + dy * dy).toNat : Nat) : Int) := by
    intro d hd
    have h1 : d.natAbs * d.natAbs ≤ (dx * dx + dy * dy).toNat := by
      have : ((d.natAbs * d.natAbs : Nat) : Int) ≤ (((dx * dx + dy * dy).toNat : Nat) : Int) := by
        rw [hcast]
        push_cast
        rw [abs_mul_abs_self]
        exact hd
      exact_mod_cast this
    have h2 : d.natAbs ≤ Nat.sqrt (dx * dx + dy * dy).toNat := Nat.le_sqrt.mpr h1
    omega
  have hbx := habs dx (by omega)
  have hby := habs dy (by omega)
  have hb : ∀ d : Int, d * d ≤ 2147483647 → -46340 ≤ d ∧ d ≤ 46340 := by
    intro d hd
    constructor <;> nlinarith
  have hdx := hb dx (by omega)
  have hdy := hb dy (by omega)
  exact ⟨hx, hy, by omega, by omega, hdx.1, hdx.2, hdy.1, hdy.2, hr, hbx.1, hbx.2, hby.1, hby.2⟩

/-- When the squared length fits in an `int`, line 98 computes on 32 bits the
dash count of the mathematical integers. -/
theorem dash_count_eq_math (undef dx dy D : Int) (hlen : dx * dx + dy * dy ≤ 2147483647) :
    dash_count undef (wrap32 dx) (wrap32 dy) D = dash_count_math undef dx dy D := by
  obtain ⟨hx, hy, hx', hy', a1, a2, b1, b2, _⟩ := sq_len_bounds dx dy hlen
  have w1 : wrap32 dx = dx := wrap32_of_in_int _ (by unfold in_int; omega)
  have w2 : wrap32 dy = dy := wrap32_of_in_int _ (by unfold in_int; omega)
  have h1 : wrap32 (dx * dx) = dx * dx := wrap32_of_in_int _ (by unfold in_int; omega)
  have h2 : wrap32 (dy * dy) = dy * dy := wrap32_of_in_int _ (by unfold in_int; omega)
  have h3 : wrap32 (dx * dx + dy * dy) = dx * dx + dy * dy :=
    wrap32_of_in_int _ (by unfold in_int; omega)
  have h4 : ¬ (dx * dx + dy * dy < 0) := by omega
  simp only [dash_count, dash_count_math, w1, w2, h1, h2, h3, h4, if_false]

/-- For a dash length `D ≥ 1` the dash count on mathematical integers lies
between `0` and the integer square root of the squared length. -/
theorem dash_count_math_le (undef dx dy D : Int) (hD : 1 ≤ D) :
    0 ≤ dash_count_math undef dx dy D ∧
    dash_count_math undef dx dy D ≤ ((Nat.sqrt (dx * dx + dy * dy).toNat : Nat) : Int) := by
  have hne : D ≠ 0 := by omega
  simp only [dash_count_math, hne, if_false]
  rw [Int.tdiv_eq_ediv (Int.natCast_nonneg _) (by omega)]
  constructor
  · exact Int.ediv_nonneg (Int.natCast_nonneg _) (by omega)
  · exact Int.ediv_le_self D (Int.natCast_nonneg (Nat.sqrt (dx * dx + dy * dy).toNat))

/-- One sub-segment on 32 bits is the sub-segment on mathematical integers
when the end points of the segment are `int`s and the products of an index up
to the dash count by the displacements lie in the range of `int`. -/
theorem sub_segment_eq_dash_iter (x1 y1 dx dy dc : Int) (i : Nat) (hdc : 0 < dc)
    (hi : (i : Int) + 1 ≤ dc) (hdcr : dc ≤ 2147483647)
    (hx1 : in_int x1) (hx2 : in_int (x1 + dx)) (hy1 : in_int y1) (hy2 : in_int (y1 + dy))
    (hmx : ∀ a : Int, 0 ≤ a → a ≤ dc → in_int (a * dx))
    (hmy : ∀ a : Int, 0 ≤ a → a ≤ dc → in_int (a * dy)) :
    sub_segment x1 y1 dx dy dc i = dash_iter x1 y1 dx dy dc i := by
  have hi0 : (0 : Int) ≤ (i : Int) := Int.natCast_nonneg i
  have key : ∀ (c d a : Int), in_int c → in_int (c + d) → 0 ≤ a → a ≤ dc → in_int (a * d) →
      wrap32 (c + wrap32 (Int.tdiv (wrap32 (a * d)) dc)) = c + Int.tdiv (a * d) dc := by
    intro c d a hc hcd ha0 ha hm
    rw [wrap32_of_in_int _ hm]
    have hm' := hm
    obtain ⟨hp, hn⟩ := tdiv_mul_between a d dc ha0 ha hdc
    unfold in_int at hc hcd hm'
    have hq : in_int (Int.tdiv (a * d) dc) := by
      unfold in_int
      rcases le_total 0 d with h | h
      · have := hp h; omega
      · have := hn h; omega
    rw [wrap32_of_in_int _ hq]
    apply wrap32_of_in_int
    unfold in_int
    rcases le_total 0 d with h | h
    · have := hp h; omega
    · have := hn h; omega
  have w1 : wrap32 ((i : Int) + 1) = (i : Int) + 1 := wrap32_of_in_int _ (by unfold in_int; omega)
  simp only [sub_segment, dash_iter, w1]
  rw [key x1 dx (i : Int) hx1 hx2 hi0 (by omega) (hmx _ hi0 (by omega)),
    key y1 dy (i : Int) hy1 hy2 hi0 (by omega) (hmy _ hi0 (by omega)),
    key x1 dx ((i : Int) + 1) hx1 hx2 (by omega) hi (hmx _ (by omega) hi),
    key y1 dy ((i : Int) + 1) hy1 hy2 (by omega) hi (hmy _ (by omega) hi)]

/-- When the four coordinates are `int`s, the squared length of the segment
fits in an `int` and the dash length is at least 1, the loop on 32 bits goes
through the sub-segments of the mathematical integers. -/
theorem draw_dashed_line_iters_eq_math (undef x1 y1 x2 y2 D : Int)
    (hx1 : in_int x1) (hy1 : in_int y1) (hx2 : in_int x2) (hy2 : in_int y2)
    (hlen : (x2 - x1) * (x2 - x1) + (y2 - y1) * (y2 - y1) ≤ 2147483647) (hD : 1 ≤ D) :
    draw_dashed_line_iters undef x1 y1 x2 y2 D =
      draw_dashed_line_iters_math undef x1 y1 x2 y2 D := by
  obtain ⟨hx, hy, hx', hy', a1, a2, b1, b2, hr, c1, c2, d1, d2⟩ :=
    sq_len_bounds (x2 - x1) (y2 - y1) hlen
  obtain ⟨e0, e1⟩ := dash_count_math_le undef (x2 - x1) (y2 - y1) D hD
  have w1 : wrap32 (x2 - x1) = x2 - x1 := wrap32_of_in_int _ (by unfold in_int; omega)
  have w2 : wrap32 (y2 - y1) = y2 - y1 := wrap32_of_in_int _ (by unfold in_int; omega)
  have hdc := dash_count_eq_math undef (x2 - x1) (y2 - y1) D hlen
  rw [w1, w2] at hdc
  rw [draw_dashed_line_iters_eq, draw_dashed_line_iters_math_eq, sub_segments, w1, w2, hdc]
  congr 1
  apply List.map_congr_left
  intro i hi
  have hlt := List.mem_range.mp hi
  have hr0 : (0 : Int) ≤ ((Nat.sqrt ((x2 - x1) * (x2 - x1) + (y2 - y1) * (y2 - y1)).toNat : Nat) : Int) :=
    Int.natCast_nonneg _
  have hprod : ∀ d : Int,
      -((Nat.sqrt ((x2 - x1) * (x2 - x1) + (y2 - y1) * (y2 - y1)).toNat : Nat) : Int) ≤ d →
      d ≤ ((Nat.sqrt ((x2 - x1) * (x2 - x1) + (y2 - y1) * (y2 - y1)).toNat : Nat) : Int) →
      ∀ a : Int, 0 ≤ a → a ≤ dash_count_math undef (x2 - x1) (y2 - y1) D → in_int (a * d) := by
    intro d hd0 hd a ha0 ha
    obtain ⟨p0, p1⟩ := mul_abs_le a d _ ha0 (by omega) hd0 hd
    unfold in_int
    omega
  apply sub_segment_eq_dash_iter
  · omega
  · omega
  · have hsq : ((Nat.sqrt ((x2 - x1) * (x2 - x1) + (y2 - y1) * (y2 - y1)).toNat : Nat) : Int) ≤
        2147483647 := by nlinarith
    omega
  · exact hx1
  · have : x1 + (x2 - x1) = x2 := by ring
    rw [this]; exact hx2
  · exact hy1
  · have : y1 + (y2 - y1) = y2 := by ring
    rw [this]; exact hy2
  · exact hprod _ c1 c2
  · exact hprod _ d1 d2

theorem draw_dashed_line_eq_math (undef x1 y1 x2 y2 D : Int)
    (hx1 : in_int x1) (hy1 : in_int y1) (hx2 : in_int x2) (hy2 : in_int y2)
    (hlen : (x2 - x1) * (x2 - x1) + (y2 - y1) * (y2 - y1) ≤ 2147483647) (hD : 1 ≤ D) :
    draw_dashed_line undef x1 y1 x2 y2 D = draw_dashed_line_math undef x1 y1 x2 y2 D := by
  simp only [draw_dashed_line, draw_dashed_line_math,
    draw_dashed_line_iters_eq_math undef x1 y1 x2 y2 D hx1 hy1 hx2 hy2 hlen hD]

/-! ## Lemmas on the sub-segments -/

/-- Adding `a` to `X` raises the floored quotient by `n` by `a / n` or by
`a / n + 1`. -/
theorem ediv_add_cases (X a n : Int) (hn : 0 < n) :
    (X + a) / n - X / n = a / n ∨ (X + a) / n - X / n = a / n + 1 := by
  have hX := Int.emod_add_ediv X n
  have ha := Int.emod_add_ediv a n
  have hX0 := Int.emod_nonneg X (ne_of_gt hn)
  have ha0 := Int.emod_nonneg a (ne_of_gt hn)
  have hX1 := Int.emod_lt_of_pos X hn
  have ha1 := Int.emod_lt_of_pos a hn
  have hsum : X + a = (X % n + a % n) + n * (X / n + a / n) := by
    rw [mul_add]; omega
  by_cases hr : X % n + a % n < n
  · left
    rw [hsum, Int.add_mul_ediv_left _ _ (ne_of_gt hn),
      Int.ediv_eq_zero_of_lt (by omega) hr]
    omega
  · right
    have hsum' : X + a = (X % n + a % n - n) + n * (X / n + a / n + 1) := by
      rw [hsum]; ring
    rw [hsum', Int.add_mul_ediv_left _ _ (ne_of_gt hn),
      Int.ediv_eq_zero_of_lt (by omega) (by omega)]
    omega

/-- The displacement of sub-segment `i` along one axis is the truncated
quotient `d / n`, or one further from zero. -/
theorem displacement_cases (d n : Int) (hn : 0 < n) (i : Nat) :
    Int.tdiv (((i : Int) + 1) * d) n - Int.tdiv ((i : Int) * d) n = Int.tdiv d n ∨
    Int.tdiv (((i : Int) + 1) * d) n - Int.tdiv ((i : Int) * d) n = Int.tdiv d n + Int.sign d := by
  have hi : (0 : Int) ≤ (i : Int) := Int.natCast_nonneg i
  rcases lt_trichotomy d 0 with hd | hd | hd
  · -- a negative displacement: work with `p = -d`
    obtain ⟨p, rfl⟩ : ∃ p : Int, d = -p := ⟨-d, by ring⟩
    have hpos : 0 < p := by omega
    have hnn : 0 ≤ (i : Int) * p := mul_nonneg hi hpos.le
    have h1 : Int.tdiv (((i : Int) + 1) * -p) n = -(((i : Int) * p + p) / n) := by
      rw [show ((i : Int) + 1) * -p = -((i : Int) * p + p) by ring, Int.neg_tdiv,
        Int.tdiv_eq_ediv (by omega) hn.le]
    have h2 : Int.tdiv ((i : Int) * -p) n = -(((i : Int) * p) / n) := by
      rw [show (i : Int) * -p = -((i : Int) * p) by ring, Int.neg_tdiv,
        Int.tdiv_eq_ediv hnn hn.le]
    have h3 : Int.tdiv (-p) n = -(p / n) := by
      rw [Int.neg_tdiv, Int.tdiv_eq_ediv hpos.le hn.le]
    have hs : Int.sign (-p) = -1 := Int.sign_eq_neg_one_of_neg hd
    rw [h1, h2, h3, hs]
    rcases ediv_add_cases ((i : Int) * p) p n hn with h | h
    · left; omega
    · right; omega
  · subst hd; simp
  · have e1 : ((i : Int) + 1) * d = (i : Int) * d + d := by ring
    have hnn : 0 ≤ (i : Int) * d := mul_nonneg hi hd.le
    have hs : Int.sign d = 1 := Int.sign_eq_one_of_pos hd
    rw [e1, Int.tdiv_eq_ediv (by omega) hn.le, Int.tdiv_eq_ediv hnn hn.le,
      Int.tdiv_eq_ediv hd.le hn.le, hs]
    rcases ediv_add_cases ((i : Int) * d) d n hn with h | h
    · left; omega
    · right; omega

theorem sign_cases (d : Int) : Int.sign d = -1 ∨ Int.sign d = 0 ∨ Int.sign d = 1 := by
  rcases lt_trichotomy d 0 with hd | hd | hd
  · left; exact Int.sign_eq_neg_one_of_neg hd
  · right; left; subst hd; rfl
  · right; right; exact Int.sign_eq_one_of_pos hd

/-- When `n` divides `d` every displacement is `d / n`. -/
theorem displacement_of_dvd (d n : Int) (hn : 0 < n) (hdvd : n ∣ d) (i : Nat) :
    Int.tdiv (((i : Int) + 1) * d) n - Int.tdiv ((i : Int) * d) n = Int.tdiv d n := by
  obtain ⟨m, rfl⟩ := hdvd
  have hne : n ≠ 0 := ne_of_gt hn
  have e1 : ((i : Int) + 1) * (n * m) = n * (((i : Int) + 1) * m) := by ring
  have e2 : (i : Int) * (n * m) = n * ((i : Int) * m) := by ring
  rw [e1, e2, Int.mul_tdiv_cancel_left _ hne, Int.mul_tdiv_cancel_left _ hne,
    Int.mul_tdiv_cancel_left _ hne]
  ring

theorem dash_iter_displacement (x1 y1 dx dy dc : Int) (i : Nat) :
    (dash_iter x1 y1 dx dy dc i).end_x - (dash_iter x1 y1 dx dy dc i).start_x =
      Int.tdiv (((i : Int) + 1) * dx) dc - Int.tdiv ((i : Int) * dx) dc ∧
    (dash_iter x1 y1 dx dy dc i).end_y - (dash_iter x1 y1 dx dy dc i).start_y =
      Int.tdiv (((i : Int) + 1) * dy) dc - Int.tdiv ((i : Int) * dy) dc := by
  simp only [dash_iter]
  constructor <;> ring

theorem getElem?_map_range {α : Type} (f : Nat → α) (k i : Nat) (a : α)
    (h : ((List.range k).map f)[i]? = some a) : i < k ∧ a = f i := by
  rw [List.getElem?_map] at h
  by_cases hi : i < k
  · rw [List.getElem?_range hi] at h
    simp only [Option.map_some', Option.some.injEq] at h
    exact ⟨hi, h.symm⟩
  · have hnone : (List.range k)[i]? = none := by
      apply List.getElem?_eq_none
      simp only [List.length_range]; omega
    rw [hnone] at h
    simp at h

theorem getElem?_map_range_of_lt {α : Type} (f : Nat → α) (k i : Nat) (hi : i < k) :
    ((List.range k).map f)[i]? = some (f i) := by
  rw [List.getElem?_map, List.getElem?_range hi]
  rfl

/-- The segment from `(0, 0)` to `(30, 40)` has length `50`: with dash length
`10` the floor of the quotient is `5`. -/
theorem floor_len_30_40 :
    (5 : Int) = ⌊Real.sqrt ((((30 : Int) : ℝ) - ((0 : Int) : ℝ)) ^ 2 +
      (((40 : Int) : ℝ) - ((0 : Int) : ℝ)) ^ 2) / ((10 : Int) : ℝ)⌋ := by
  have h : Real.sqrt ((((30 : Int) : ℝ) - ((0 : Int) : ℝ)) ^ 2 +
      (((40 : Int) : ℝ) - ((0 : Int) : ℝ)) ^ 2) = 50 := by
    have : (((30 : Int) : ℝ) - ((0 : Int) : ℝ)) ^ 2 + (((40 : Int) : ℝ) - ((0 : Int) : ℝ)) ^ 2
        = (50 : ℝ) ^ 2 := by norm_num
    rw [this, Real.sqrt_sq (by norm_num)]
  rw [h]
  norm_num

/-- The floor of `sqrt(a^2 + 0^2) / D` for a horizontal segment of length
`a ≥ 0`. -/
theorem floor_len_horizontal (a D q : Int) (ha : 0 ≤ a) (hD : 0 < D) (h1 : q * D ≤ a)
    (h2 : a < (q + 1) * D) :
    ⌊Real.sqrt (((a : ℝ) - ((0 : Int) : ℝ)) ^ 2 + (((0 : Int) : ℝ) - ((0 : Int) : ℝ)) ^ 2) /
      (D : ℝ)⌋ = q := by
  have h : Real.sqrt (((a : ℝ) - ((0 : Int) : ℝ)) ^ 2 + (((0 : Int) : ℝ) - ((0 : Int) : ℝ)) ^ 2)
      = (a : ℝ) := by
    have e : ((a : ℝ) - ((0 : Int) : ℝ)) ^ 2 + (((0 : Int) : ℝ) - ((0 : Int) : ℝ)) ^ 2 =
        (a : ℝ) ^ 2 := by
      push_cast; ring
    rw [e, Real.sqrt_sq (by exact_mod_cast ha)]
  have hDr : (0 : ℝ) < (D : ℝ) := by exact_mod_cast hD
  rw [h, Int.floor_eq_iff]
  constructor
  · rw [le_div_iff₀ hDr]
    exact_mod_cast h1
  · rw [div_lt_iff₀ hDr]
    exact_mod_cast h2

/-! ## The claims on the dashed line -/

/-- C5, amended. For a segment whose four coordinates are `int`s and whose
squared length `dx*dx + dy*dy` lies in the range of `int` (at most
`2147483647`), of Euclidean length `L`, and a dash length `D ≥ 1`,
`draw_dashed_line` runs to its end, goes through exactly `⌊L / D⌋` iterations
and makes exactly `⌈⌊L / D⌋ / 2⌉` calls, all of them `SDL_RenderDrawLine`;
when `L < D` the dash count is `0`, the loop body never runs (so nothing is
divided by the dash count) and no call is made. -/
theorem C5_dash_count_and_strokes (undef x1 y1 x2 y2 D : Int)
    (hx1 : in_int x1) (hy1 : in_int y1) (hx2 : in_int x2) (hy2 : in_int y2)
    (hlen : (x2 - x1) * (x2 - x1) + (y2 - y1) * (y2 - y1) ≤ 2147483647) (hD : 1 ≤ D) :
    ∃ iters calls,
      draw_dashed_line_iters undef x1 y1 x2 y2 D = some iters ∧
      draw_dashed_line undef x1 y1 x2 y2 D = some calls ∧
      (iters.length : Int) =
        ⌊Real.sqrt (((x2 : ℝ) - x1) ^ 2 + ((y2 : ℝ) - y1) ^ 2) / (D : ℝ)⌋ ∧
      (calls.length : Int) =
        ⌈((⌊Real.sqrt (((x2 : ℝ) - x1) ^ 2 + ((y2 : ℝ) - y1) ^ 2) / (D : ℝ)⌋ : Int) : ℝ) / 2⌉ ∧
      (∀ c ∈ calls, ∃ a b a' b', c = SDLCall.renderDrawLine a b a' b') ∧
      (Real.sqrt (((x2 : ℝ) - x1) ^ 2 + ((y2 : ℝ) - y1) ^ 2) < (D : ℝ) →
        dash_count undef (wrap32 (x2 - x1)) (wrap32 (y2 - y1)) D = 0 ∧ iters = [] ∧
          calls = []) := by
  have hfl := dash_count_math_eq_floor undef x1 y1 x2 y2 D hD
  have hDpos : (0 : ℝ) < (D : ℝ) := by exact_mod_cast (by omega : (0 : Int) < D)
  have hnn : 0 ≤ dash_count_math undef (x2 - x1) (y2 - y1) D := by
    rw [hfl]; positivity
  have hit := draw_dashed_line_iters_eq_math undef x1 y1 x2 y2 D hx1 hy1 hx2 hy2 hlen hD
  have hcl := draw_dashed_line_eq_math undef x1 y1 x2 y2 D hx1 hy1 hx2 hy2 hlen hD
  rw [draw_dashed_line_iters_math_eq] at hit
  rw [draw_dashed_line_math_eq] at hcl
  refine ⟨_, _, hit, hcl, ?_, ?_, ?_, ?_⟩
  · rw [List.length_map, List.length_range, Int.toNat_of_nonneg hnn, hfl]
  · rw [dashed_strokes_math_length, ← hfl, ← ceil_half, Int.toNat_of_nonneg hnn]
  · intro c hc
    simp only [dashed_strokes_math, List.mem_map] at hc
    obtain ⟨i, _, rfl⟩ := hc
    exact ⟨_, _, _, _, rfl⟩
  · intro hlt
    have hzero : dash_count_math undef (x2 - x1) (y2 - y1) D = 0 := by
      rw [hfl, Int.floor_eq_iff]
      constructor
      · simpa using div_nonneg (Real.sqrt_nonneg _) hDpos.le
      · simpa using (div_lt_one hDpos).mpr hlt
    rw [dash_count_eq_math undef _ _ D hlen]
    simp [dashed_strokes_math, hzero]

/-- Witness of C5: the segment from `(0, 0)` to `(30, 40)` with dash length
`10`. -/
theorem C5_dash_count_and_strokes_witness :
    in_int 0 ∧ in_int 0 ∧ in_int 30 ∧ in_int 40 ∧
    ((30 - 0 : Int) * (30 - 0) + (40 - 0) * (40 - 0) ≤ 2147483647) ∧ (1 : Int) ≤ 10 ∧
    ∃ iters calls,
      draw_dashed_line_iters 0 0 0 30 40 10 = some iters ∧
      draw_dashed_line 0 0 0 30 40 10 = some calls ∧
      (iters.length : Int) =
        ⌊Real.sqrt ((((30 : Int) : ℝ) - (0 : Int)) ^ 2 + (((40 : Int) : ℝ) - (0 : Int)) ^ 2) /
          ((10 : Int) : ℝ)⌋ ∧
      (calls.length : Int) =
        ⌈((⌊Real.sqrt ((((30 : Int) : ℝ) - (0 : Int)) ^ 2 + (((40 : Int) : ℝ) - (0 : Int)) ^ 2) /
          ((10 : Int) : ℝ)⌋ : Int) : ℝ) / 2⌉ ∧
      (∀ c ∈ calls, ∃ a b a' b', c = SDLCall.renderDrawLine a b a' b') ∧
      (Real.sqrt ((((30 : Int) : ℝ) - (0 : Int)) ^ 2 + (((40 : Int) : ℝ) - (0 : Int)) ^ 2) <
          ((10 : Int) : ℝ) →
        dash_count 0 (wrap32 (30 - 0)) (wrap32 (40 - 0)) 10 = 0 ∧ iters = [] ∧ calls = []) :=
  ⟨by decide, by decide, by decide, by decide, by decide, by decide,
   C5_dash_count_and_strokes 0 0 0 30 40 10 (by decide) (by decide) (by decide) (by decide)
    (by decide) (by decide)⟩

/-- C5 as stated fails: for the segment from `(0, 0)` to `(65536, 0)` and the
dash length `10000` the quotient `L / D` is `6.5536`, of floor `6`, but the
square `65536 * 65536` is `0` on 32 bits: the dash count is `0`, the loop does
not run and no call is made. -/
theorem C5_dash_count_and_strokes_counterexample :
    draw_dashed_line_iters (-2147483648) 0 0 65536 0 10000 = some [] ∧
    draw_dashed_line (-2147483648) 0 0 65536 0 10000 = some [] ∧
    ⌊Real.sqrt ((((65536 : Int) : ℝ) - ((0 : Int) : ℝ)) ^ 2 +
      (((0 : Int) : ℝ) - ((0 : Int) : ℝ)) ^ 2) / ((10000 : Int) : ℝ)⌋ = 6 := by
  have hdc : dash_count (-2147483648) (wrap32 (65536 - 0)) (wrap32 (0 - 0)) 10000 = 0 := by
    have hw : wrap32 (65536 - 0) = 65536 := by decide
    have hw0 : wrap32 (0 - 0) = 0 := by decide
    have hs : wrap32 (wrap32 ((65536 : Int) * 65536) + wrap32 ((0 : Int) * 0)) = 0 := by decide
    have hq : Nat.sqrt 0 = 0 := nat_sqrt_eq _ _ (by norm_num) (by norm_num)
    simp only [dash_count, hw, hw0, hs]
    rw [if_neg (by decide), if_neg (by decide)]
    have ht : (0 : Int).toNat = 0 := by decide
    rw [ht, hq]
    decide
  refine ⟨?_, ?_, ?_⟩
  · rw [draw_dashed_line_iters_eq, sub_segments, hdc]
    rfl
  · rw [draw_dashed_line_eq_strokes, dashed_strokes, sub_segments, hdc]
    rfl
  · exact floor_len_horizontal 65536 10000 6 (by decide) (by decide) (by decide) (by decide)

/-- C6, amended. For a segment whose four coordinates are `int`s and whose
squared length lies in the range of `int`, when the dash count
`dc = ⌊L / D⌋` is at least 1, the calls of `draw_dashed_line` are exactly the
sub-segments of even index `i < dc`, in increasing order of `i`; sub-segment
`i` runs from `(x1 + i*dx/dc, y1 + i*dy/dc)` to
`(x1 + (i+1)*dx/dc, y1 + (i+1)*dy/dc)` with `dx = x2 - x1`, `dy = y2 - y1` and
the truncating division of C.  No sub-segment of odd index is drawn. -/
theorem C6_even_strokes (undef x1 y1 x2 y2 D dc : Int)
    (hx1 : in_int x1) (hy1 : in_int y1) (hx2 : in_int x2) (hy2 : in_int y2)
    (hlen : (x2 - x1) * (x2 - x1) + (y2 - y1) * (y2 - y1) ≤ 2147483647)
    (hdc : dc = ⌊Real.sqrt (((x2 : ℝ) - x1) ^ 2 + ((y2 : ℝ) - y1) ^ 2) / (D : ℝ)⌋)
    (h1 : 1 ≤ dc) :
    draw_dashed_line undef x1 y1 x2 y2 D =
      some (((List.range dc.toNat).filter (fun i => i % 2 = 0)).map fun (i : Nat) =>
        SDLCall.renderDrawLine
          (x1 + Int.tdiv ((i : Int) * (x2 - x1)) dc) (y1 + Int.tdiv ((i : Int) * (y2 - y1)) dc)
          (x1 + Int.tdiv (((i : Int) + 1) * (x2 - x1)) dc)
          (y1 + Int.tdiv (((i : Int) + 1) * (y2 - y1)) dc)) := by
  have hD : 1 ≤ D := by
    by_contra hcon
    have hDle : (D : ℝ) ≤ 0 := by exact_mod_cast (by omega : D ≤ 0)
    have hq : Real.sqrt (((x2 : ℝ) - x1) ^ 2 + ((y2 : ℝ) - y1) ^ 2) / (D : ℝ) ≤ 0 :=
      div_nonpos_of_nonneg_of_nonpos (Real.sqrt_nonneg _) hDle
    have hfl : ⌊Real.sqrt (((x2 : ℝ) - x1) ^ 2 + ((y2 : ℝ) - y1) ^ 2) / (D : ℝ)⌋ ≤ 0 := by
      have := Int.floor_le (Real.sqrt (((x2 : ℝ) - x1) ^ 2 + ((y2 : ℝ) - y1) ^ 2) / (D : ℝ))
      have h' : ((⌊Real.sqrt (((x2 : ℝ) - x1) ^ 2 + ((y2 : ℝ) - y1) ^ 2) / (D : ℝ)⌋ : Int) : ℝ)
          ≤ 0 := le_trans this hq
      exact_mod_cast h'
    omega
  have hfl := dash_count_math_eq_floor undef x1 y1 x2 y2 D hD
  rw [draw_dashed_line_eq_math undef x1 y1 x2 y2 D hx1 hy1 hx2 hy2 hlen hD,
    draw_dashed_line_math_eq, dashed_strokes_math, hfl, ← hdc]
  rfl

/-- Witness of C6: the segment from `(0, 0)` to `(30, 40)` with dash length
`10` has length `50` and dash count `5`. -/
theorem C6_even_strokes_witness :
    in_int 0 ∧ in_int 0 ∧ in_int 30 ∧ in_int 40 ∧
    ((30 - 0 : Int) * (30 - 0) + (40 - 0) * (40 - 0) ≤ 2147483647) ∧
    (5 : Int) = ⌊Real.sqrt ((((30 : Int) : ℝ) - ((0 : Int) : ℝ)) ^ 2 +
      (((40 : Int) : ℝ) - ((0 : Int) : ℝ)) ^ 2) / ((10 : Int) : ℝ)⌋ ∧ (1 : Int) ≤ 5 ∧
    draw_dashed_line 0 0 0 30 40 10 =
      some (((List.range (5 : Int).toNat).filter (fun i => i % 2 = 0)).map fun (i : Nat) =>
        SDLCall.renderDrawLine
          (0 + Int.tdiv ((i : Int) * (30 - 0)) 5) (0 + Int.tdiv ((i : Int) * (40 - 0)) 5)
          (0 + Int.tdiv (((i : Int) + 1) * (30 - 0)) 5)
          (0 + Int.tdiv (((i : Int) + 1) * (40 - 0)) 5)) :=
  ⟨by decide, by decide, by decide, by decide, by decide, floor_len_30_40, by decide,
   C6_even_strokes 0 0 0 30 40 10 5 (by decide) (by decide) (by decide) (by decide) (by decide)
    floor_len_30_40 (by decide)⟩

/-- C6 as stated fails: for the segment from `(0, 0)` to `(100000, 0)` and the
dash length `10000` the dash count `⌊L / D⌋` is `10`, and the claim has the
five strokes of index `0, 2, 4, 6, 8`, the first one from `0` to `10000`; on
32 bits the square `100000 * 100000` is `1410065408`, its square root is
`37550.8`, the dash count is `3`, and the two strokes drawn run from `0` to
`33333` and from `66666` to `100000`. -/
theorem C6_even_strokes_counterexample :
    ⌊Real.sqrt ((((100000 : Int) : ℝ) - ((0 : Int) : ℝ)) ^ 2 +
      (((0 : Int) : ℝ) - ((0 : Int) : ℝ)) ^ 2) / ((10000 : Int) : ℝ)⌋ = 10 ∧
    draw_dashed_line (-2147483648) 0 0 100000 0 10000 =
      some [SDLCall.renderDrawLine 0 0 33333 0, SDLCall.renderDrawLine 66666 0 100000 0] ∧
    [SDLCall.renderDrawLine 0 0 33333 0, SDLCall.renderDrawLine 66666 0 100000 0] ≠
      (((List.range (10 : Int).toNat).filter (fun i => i % 2 = 0)).map fun (i : Nat) =>
        SDLCall.renderDrawLine
          (0 + Int.tdiv ((i : Int) * (100000 - 0)) 10) (0 + Int.tdiv ((i : Int) * (0 - 0)) 10)
          (0 + Int.tdiv (((i : Int) + 1) * (100000 - 0)) 10)
          (0 + Int.tdiv (((i : Int) + 1) * (0 - 0)) 10)) := by
  have hdc : dash_count (-2147483648) (wrap32 (100000 - 0)) (wrap32 (0 - 0)) 10000 = 3 := by
    have hw : wrap32 (100000 - 0) = 100000 := by decide
    have hw0 : wrap32 (0 - 0) = 0 := by decide
    have hs : wrap32 (wrap32 ((100000 : Int) * 100000) + wrap32 ((0 : Int) * 0)) = 1410065408 := by
      decide
    have hq : Nat.sqrt 1410065408 = 37550 := nat_sqrt_eq _ _ (by norm_num) (by norm_num)
    simp only [dash_count, hw, hw0, hs]
    rw [if_neg (by decide), if_neg (by decide)]
    have ht : (1410065408 : Int).toNat = 1410065408 := by decide
    rw [ht, hq]
    decide
  refine ⟨?_, ?_, ?_⟩
  · exact floor_len_horizontal 100000 10000 10 (by decide) (by decide) (by decide) (by decide)
  · rw [draw_dashed_line_eq_strokes, dashed_strokes, sub_segments, hdc]
    decide
  · decide

/-- C15, amended. For a segment whose four coordinates are `int`s and whose
squared length lies in the range of `int`, and a dash length `D ≥ 1`, when
the dash count `dc` is at least 1 the displacement of every sub-segment
computed by `draw_dashed_line` is, along each axis, the truncated quotient of
the displacement of the segment by `dc`, or one further from zero; so the
displacements of any two sub-segments differ by at most 1 along each axis,
and they are all equal when `dc` divides both `x2 - x1` and `y2 - y1`. -/
theorem C15_sub_segment_displacements (undef x1 y1 x2 y2 D : Int)
    (hx1 : in_int x1) (hy1 : in_int y1) (hx2 : in_int x2) (hy2 : in_int y2)
    (hlen : (x2 - x1) * (x2 - x1) + (y2 - y1) * (y2 - y1) ≤ 2147483647) (hD : 1 ≤ D)
    (hdc : 1 ≤ dash_count undef (x2 - x1) (y2 - y1) D) :
    ∃ iters, draw_dashed_line_iters undef x1 y1 x2 y2 D = some iters ∧
      (iters.length : Int) = dash_count undef (x2 - x1) (y2 - y1) D ∧
      (∀ a ∈ iters,
        (a.end_x - a.start_x = Int.tdiv (x2 - x1) (dash_count undef (x2 - x1) (y2 - y1) D) ∨
          a.end_x - a.start_x = Int.tdiv (x2 - x1) (dash_count undef (x2 - x1) (y2 - y1) D) +
            Int.sign (x2 - x1)) ∧
        (a.end_y - a.start_y = Int.tdiv (y2 - y1) (dash_count undef (x2 - x1) (y2 - y1) D) ∨
          a.end_y - a.start_y = Int.tdiv (y2 - y1) (dash_count undef (x2 - x1) (y2 - y1) D) +
            Int.sign (y2 - y1))) ∧
      (∀ a ∈ iters, ∀ b ∈ iters,
        |(a.end_x - a.start_x) - (b.end_x - b.start_x)| ≤ 1 ∧
        |(a.end_y - a.start_y) - (b.end_y - b.start_y)| ≤ 1) ∧
      (dash_count undef (x2 - x1) (y2 - y1) D ∣ x2 - x1 →
        dash_count undef (x2 - x1) (y2 - y1) D ∣ y2 - y1 →
        ∀ a ∈ iters, ∀ b ∈ iters,
          a.end_x - a.start_x = b.end_x - b.start_x ∧
          a.end_y - a.start_y = b.end_y - b.start_y) := by
  obtain ⟨_, _, _, _, a1, a2, b1, b2, _⟩ := sq_len_bounds (x2 - x1) (y2 - y1) hlen
  have w1 : wrap32 (x2 - x1) = x2 - x1 := wrap32_of_in_int _ (by unfold in_int; omega)
  have w2 : wrap32 (y2 - y1) = y2 - y1 := wrap32_of_in_int _ (by unfold in_int; omega)
  have hm := dash_count_eq_math undef (x2 - x1) (y2 - y1) D hlen
  rw [w1, w2] at hm
  rw [hm] at hdc ⊢
  have hpos : 0 < dash_count_math undef (x2 - x1) (y2 - y1) D := by omega
  have hcases : ∀ a ∈ (List.range (dash_count_math undef (x2 - x1) (y2 - y1) D).toNat).map
      (dash_iter x1 y1 (x2 - x1) (y2 - y1) (dash_count_math undef (x2 - x1) (y2 - y1) D)),
      (a.end_x - a.start_x = Int.tdiv (x2 - x1) (dash_count_math undef (x2 - x1) (y2 - y1) D) ∨
        a.end_x - a.start_x = Int.tdiv (x2 - x1) (dash_count_math undef (x2 - x1) (y2 - y1) D) +
          Int.sign (x2 - x1)) ∧
      (a.end_y - a.start_y = Int.tdiv (y2 - y1) (dash_count_math undef (x2 - x1) (y2 - y1) D) ∨
        a.end_y - a.start_y = Int.tdiv (y2 - y1) (dash_count_math undef (x2 - x1) (y2 - y1) D) +
          Int.sign (y2 - y1)) := by
    intro a ha
    obtain ⟨i, _, rfl⟩ := List.mem_map.mp ha
    obtain ⟨ex, ey⟩ := dash_iter_displacement x1 y1 (x2 - x1) (y2 - y1)
      (dash_count_math undef (x2 - x1) (y2 - y1) D) i
    rw [ex, ey]
    exact ⟨displacement_cases _ _ hpos i, displacement_cases _ _ hpos i⟩
  have hit := draw_dashed_line_iters_eq_math undef x1 y1 x2 y2 D hx1 hy1 hx2 hy2 hlen hD
  rw [draw_dashed_line_iters_math_eq] at hit
  refine ⟨_, hit, ?_, hcases, ?_, ?_⟩
  · rw [List.length_map, List.length_range, Int.toNat_of_nonneg hpos.le]
  · intro a ha b hb
    have hsx := sign_cases (x2 - x1)
    have hsy := sign_cases (y2 - y1)
    obtain ⟨hax, hay⟩ := hcases a ha
    obtain ⟨hbx, hby⟩ := hcases b hb
    constructor
    · rw [abs_le]; omega
    · rw [abs_le]; omega
  · intro hdx hdy a ha b hb
    obtain ⟨i, _, rfl⟩ := List.mem_map.mp ha
    obtain ⟨j, _, rfl⟩ := List.mem_map.mp hb
    obtain ⟨ex, ey⟩ := dash_iter_displacement x1 y1 (x2 - x1) (y2 - y1)
      (dash_count_math undef (x2 - x1) (y2 - y1) D) i
    obtain ⟨fx, fy⟩ := dash_iter_displacement x1 y1 (x2 - x1) (y2 - y1)
      (dash_count_math undef (x2 - x1) (y2 - y1) D) j
    rw [ex, ey, fx, fy, displacement_of_dvd _ _ hpos hdx, displacement_of_dvd _ _ hpos hdx,
      displacement_of_dvd _ _ hpos hdy, displacement_of_dvd _ _ hpos hdy]
    exact ⟨rfl, rfl⟩

theorem dash_count_10_0_3 (undef : Int) : dash_count undef (10 - 0) (0 - 0) 3 = 3 := by
  have hs : wrap32 (wrap32 ((10 - 0 : Int) * (10 - 0)) + wrap32 ((0 - 0 : Int) * (0 - 0))) = 100 := by
    decide
  have hq : Nat.sqrt 100 = 10 := nat_sqrt_eq _ _ (by norm_num) (by norm_num)
  simp only [dash_count, hs]
  rw [if_neg (by decide), if_neg (by decide)]
  have ht : (100 : Int).toNat = 100 := by decide
  rw [ht, hq]
  decide

/-- Witness of C15: the segment from `(0, 0)` to `(10, 0)` with dash length
`3` has dash count `3`. -/
theorem C15_sub_segment_displacements_witness :
    in_int 0 ∧ in_int 0 ∧ in_int 10 ∧ in_int 0 ∧
    ((10 - 0 : Int) * (10 - 0) + (0 - 0) * (0 - 0) ≤ 2147483647) ∧ (1 : Int) ≤ 3 ∧
    (1 ≤ dash_count 0 (10 - 0) (0 - 0) 3) ∧
    ∃ iters, draw_dashed_line_iters 0 0 0 10 0 3 = some iters ∧
      (iters.length : Int) = dash_count 0 (10 - 0) (0 - 0) 3 ∧
      (∀ a ∈ iters,
        (a.end_x - a.start_x = Int.tdiv (10 - 0) (dash_count 0 (10 - 0) (0 - 0) 3) ∨
          a.end_x - a.start_x = Int.tdiv (10 - 0) (dash_count 0 (10 - 0) (0 - 0) 3) +
            Int.sign (10 - 0)) ∧
        (a.end_y - a.start_y = Int.tdiv (0 - 0) (dash_count 0 (10 - 0) (0 - 0) 3) ∨
          a.end_y - a.start_y = Int.tdiv (0 - 0) (dash_count 0 (10 - 0) (0 - 0) 3) +
            Int.sign (0 - 0))) ∧
      (∀ a ∈ iters, ∀ b ∈ iters,
        |(a.end_x - a.start_x) - (b.end_x - b.start_x)| ≤ 1 ∧
        |(a.end_y - a.start_y) - (b.end_y - b.start_y)| ≤ 1) ∧
      (dash_count 0 (10 - 0) (0 - 0) 3 ∣ 10 - 0 →
        dash_count 0 (10 - 0) (0 - 0) 3 ∣ 0 - 0 →
        ∀ a ∈ iters, ∀ b ∈ iters,
          a.end_x - a.start_x = b.end_x - b.start_x ∧
          a.end_y - a.start_y = b.end_y - b.start_y) :=
  ⟨by decide, by decide, by decide, by decide, by decide, by decide,
   by rw [dash_count_10_0_3]; decide,
   C15_sub_segment_displacements 0 0 0 10 0 3 (by decide) (by decide) (by decide) (by decide)
    (by decide) (by decide) (by rw [dash_count_10_0_3]; decide)⟩

/-- C15 as stated fails: the segment from `(0, 0)` to `(10, 0)` with dash
length `3` is cut in the three sub-segments `0..3`, `3..6`, `6..10`, of
displacements `3`, `3` and `4`. -/
theorem C15_sub_segment_displacements_counterexample :
    draw_dashed_line_iters (-2147483648) 0 0 10 0 3 =
      some [{ i := 0, start_x := 0, start_y := 0, end_x := 3, end_y := 0, drawn := true },
            { i := 1, start_x := 3, start_y := 0, end_x := 6, end_y := 0, drawn := false },
            { i := 2, start_x := 6, start_y := 0, end_x := 10, end_y := 0, drawn := true }] ∧
    ((3 : Int) - 0 ≠ 10 - 6) := by
  refine ⟨?_, by decide⟩
  have hw : wrap32 (10 - 0) = 10 - 0 := by decide
  have hw0 : wrap32 (0 - 0) = 0 - 0 := by decide
  rw [draw_dashed_line_iters_eq, sub_segments, hw, hw0, dash_count_10_0_3]
  decide

/-- C17, amended. For a segment whose four coordinates are `int`s and whose
squared length lies in the range of `int`, and a dash length `D ≥ 1`, when
the dash count is at least 1 the sub-segments computed by `draw_dashed_line`
tile the segment: the first one starts at `(x1, y1)`, the last one ends at
`(x2, y2)`, and each one ends where the next one starts. -/
theorem C17_sub_segments_tile (undef x1 y1 x2 y2 D : Int)
    (hx1 : in_int x1) (hy1 : in_int y1) (hx2 : in_int x2) (hy2 : in_int y2)
    (hlen : (x2 - x1) * (x2 - x1) + (y2 - y1) * (y2 - y1) ≤ 2147483647) (hD : 1 ≤ D)
    (hdc : 1 ≤ dash_count undef (x2 - x1) (y2 - y1) D) :
    ∃ iters, draw_dashed_line_iters undef x1 y1 x2 y2 D = some iters ∧
      (iters.length : Int) = dash_count undef (x2 - x1) (y2 - y1) D ∧
      (∃ first, iters[0]? = some first ∧ first.start_x = x1 ∧ first.start_y = y1) ∧
      (∃ last, iters[iters.length - 1]? = some last ∧ last.end_x = x2 ∧ last.end_y = y2) ∧
      (∀ (i : Nat) (a b : DashIter), iters[i]? = some a → iters[i + 1]? = some b →
        a.end_x = b.start_x ∧ a.end_y = b.start_y) := by
  obtain ⟨_, _, _, _, a1, a2, b1, b2, _⟩ := sq_len_bounds (x2 - x1) (y2 - y1) hlen
  have w1 : wrap32 (x2 - x1) = x2 - x1 := wrap32_of_in_int _ (by unfold in_int; omega)
  have w2 : wrap32 (y2 - y1) = y2 - y1 := wrap32_of_in_int _ (by unfold in_int; omega)
  have hm := dash_count_eq_math undef (x2 - x1) (y2 - y1) D hlen
  rw [w1, w2] at hm
  rw [hm] at hdc ⊢
  have hpos : 0 < dash_count_math undef (x2 - x1) (y2 - y1) D := by omega
  have hne : dash_count_math undef (x2 - x1) (y2 - y1) D ≠ 0 := ne_of_gt hpos
  have hk : 0 < (dash_count_math undef (x2 - x1) (y2 - y1) D).toNat := by omega
  have hcast : (((dash_count_math undef (x2 - x1) (y2 - y1) D).toNat - 1 : Nat) : Int) + 1 =
      dash_count_math undef (x2 - x1) (y2 - y1) D := by omega
  have hit := draw_dashed_line_iters_eq_math undef x1 y1 x2 y2 D hx1 hy1 hx2 hy2 hlen hD
  rw [draw_dashed_line_iters_math_eq] at hit
  refine ⟨_, hit, ?_, ?_, ?_, ?_⟩
  · rw [List.length_map, List.length_range, Int.toNat_of_nonneg hpos.le]
  · refine ⟨_, getElem?_map_range_of_lt _ _ 0 hk, ?_, ?_⟩ <;> simp [dash_iter]
  · refine ⟨dash_iter x1 y1 (x2 - x1) (y2 - y1) (dash_count_math undef (x2 - x1) (y2 - y1) D)
      ((dash_count_math undef (x2 - x1) (y2 - y1) D).toNat - 1), ?_, ?_, ?_⟩
    · rw [List.length_map, List.length_range]
      exact getElem?_map_range_of_lt _ _ _ (by omega)
    · simp only [dash_iter]
      rw [hcast, Int.mul_tdiv_cancel_left _ hne]
      ring
    · simp only [dash_iter]
      rw [hcast, Int.mul_tdiv_cancel_left _ hne]
      ring
  · intro i a b ha hb
    obtain ⟨_, rfl⟩ := getElem?_map_range _ _ _ _ ha
    obtain ⟨_, rfl⟩ := getElem?_map_range _ _ _ _ hb
    simp only [dash_iter]
    push_cast
    exact ⟨rfl, rfl⟩

/-- Witness of C17: the segment from `(0, 0)` to `(10, 0)` with dash length
`3`. -/
theorem C17_sub_segments_tile_witness :
    in_int 0 ∧ in_int 0 ∧ in_int 10 ∧ in_int 0 ∧
    ((10 - 0 : Int) * (10 - 0) + (0 - 0) * (0 - 0) ≤ 2147483647) ∧ (1 : Int) ≤ 3 ∧
    (1 ≤ dash_count 0 (10 - 0) (0 - 0) 3) ∧
    ∃ iters, draw_dashed_line_iters 0 0 0 10 0 3 = some iters ∧
      (iters.length : Int) = dash_count 0 (10 - 0) (0 - 0) 3 ∧
      (∃ first, iters[0]? = some first ∧ first.start_x = 0 ∧ first.start_y = 0) ∧
      (∃ last, iters[iters.length - 1]? = some last ∧ last.end_x = 10 ∧ last.end_y = 0) ∧
      (∀ (i : Nat) (a b : DashIter), iters[i]? = some a → iters[i + 1]? = some b →
        a.end_x = b.start_x ∧ a.end_y = b.start_y) :=
  ⟨by decide, by decide, by decide, by decide, by decide, by decide,
   by rw [dash_count_10_0_3]; decide,
   C17_sub_segments_tile 0 0 0 10 0 3 (by decide) (by decide) (by decide) (by decide)
    (by decide) (by decide) (by rw [dash_count_10_0_3]; decide)⟩

/-- C17 as stated fails: for the segment from `(0, 0)` to `(1073741826, 0)`
and the dash length `1` the square of `dx = 1073741826` is `4` on 32 bits and
the dash count is `2`; the first sub-segment runs from `0` to `536870913`,
and the product `2 * dx` of the second one is `-2147483644` on 32 bits, so
the last sub-segment ends at `-1073741822`, not at `x2`. -/
theorem C17_sub_segments_tile_counterexample :
    dash_count (-2147483648) (wrap32 (1073741826 - 0)) (wrap32 (0 - 0)) 1 = 2 ∧
    draw_dashed_line_iters (-2147483648) 0 0 1073741826 0 1 =
      some [{ i := 0, start_x := 0, start_y := 0, end_x := 536870913, end_y := 0, drawn := true },
            { i := 1, start_x := 536870913, start_y := 0, end_x := -1073741822, end_y := 0,
              drawn := false }] ∧
    ((-1073741822 : Int) ≠ 1073741826) := by
  have hdc : dash_count (-2147483648) (wrap32 (1073741826 - 0)) (wrap32 (0 - 0)) 1 = 2 := by
    have hw : wrap32 (1073741826 - 0) = 1073741826 := by decide
    have hw0 : wrap32 (0 - 0) = 0 := by decide
    have hs : wrap32 (wrap32 ((1073741826 : Int) * 1073741826) + wrap32 ((0 : Int) * 0)) = 4 := by
      decide
    have hq : Nat.sqrt 4 = 2 := nat_sqrt_eq _ _ (by norm_num) (by norm_num)
    simp only [dash_count, hw, hw0, hs]
    rw [if_neg (by decide), if_neg (by decide)]
    have ht : (4 : Int).toNat = 4 := by decide
    rw [ht, hq]
    decide
  refine ⟨hdc, ?_, by decide⟩
  rw [draw_dashed_line_iters_eq, sub_segments, hdc]
  decide

/-! ## Lemmas on the range of C18 -/

/-- A product of a factor in `0..46338` and a factor in `-32766..32766`. -/
theorem mul_bounds (a d : Int) (ha0 : 0 ≤ a) (ha : a ≤ 46338) (hd0 : -32766 ≤ d)
    (hd : d ≤ 32766) : -1518310908 ≤ a * d ∧ a * d ≤ 1518310908 := by
  constructor <;> nlinarith

theorem sq_bounds (d : Int) (hd0 : -32766 ≤ d) (hd : d ≤ 32766) :
    0 ≤ d * d ∧ d * d ≤ 1073610756 := by
  constructor <;> nlinarith

/-- In the range of C18 the dash count is at most `46338`. -/
theorem dash_count_math_le_46338 (undef dx dy D : Int) (hD : 1 ≤ D)
    (hn : dx * dx + dy * dy ≤ 2147221512) (hn0 : 0 ≤ dx * dx + dy * dy) :
    0 ≤ dash_count_math undef dx dy D ∧ dash_count_math undef dx dy D ≤ 46338 := by
  have hne : D ≠ 0 := by omega
  have hs : Nat.sqrt (dx * dx + dy * dy).toNat < 46339 := by
    rw [Nat.sqrt_lt']
    have : (dx * dx + dy * dy).toNat ≤ 2147221512 := by omega
    omega
  simp only [dash_count_math, hne, if_false]
  rw [Int.tdiv_eq_ediv (Int.natCast_nonneg _) (by omega)]
  constructor
  · exact Int.ediv_nonneg (Int.natCast_nonneg _) (by omega)
  · have := Int.ediv_le_self D (Int.natCast_nonneg (Nat.sqrt (dx * dx + dy * dy).toNat))
    omega

/-! ## The width of `int` in the dashed line -/

/-- C18. For a segment whose four coordinates lie in `-16383..16383` and a
dash length `D ≥ 1`, every integer intermediate of `draw_dashed_line` lies in
the range of a 32-bit `int`: the differences, the squares and their sum, and
`i*dx`, `(i+1)*dx`, `i*dy`, `(i+1)*dy` for every `0 ≤ i < dash_count`; the
function, which computes on 32-bit integers, then returns what the
computation on mathematical integers returns. -/
theorem C18_no_overflow (undef x1 y1 x2 y2 D : Int)
    (hx1 : -16383 ≤ x1 ∧ x1 ≤ 16383) (hy1 : -16383 ≤ y1 ∧ y1 ≤ 16383)
    (hx2 : -16383 ≤ x2 ∧ x2 ≤ 16383) (hy2 : -16383 ≤ y2 ∧ y2 ≤ 16383) (hD : 1 ≤ D) :
    in_int (x2 - x1) ∧ in_int (y2 - y1) ∧
    in_int ((x2 - x1) * (x2 - x1)) ∧ in_int ((y2 - y1) * (y2 - y1)) ∧
    in_int ((x2 - x1) * (x2 - x1) + (y2 - y1) * (y2 - y1)) ∧
    (∀ i : Nat, (i : Int) < dash_count_math undef (x2 - x1) (y2 - y1) D →
      in_int ((i : Int) * (x2 - x1)) ∧ in_int (((i : Int) + 1) * (x2 - x1)) ∧
      in_int ((i : Int) * (y2 - y1)) ∧ in_int (((i : Int) + 1) * (y2 - y1))) ∧
    draw_dashed_line_iters undef x1 y1 x2 y2 D =
      draw_dashed_line_iters_math undef x1 y1 x2 y2 D ∧
    draw_dashed_line undef x1 y1 x2 y2 D = draw_dashed_line_math undef x1 y1 x2 y2 D := by
  obtain ⟨hx1a, hx1b⟩ := hx1
  obtain ⟨hy1a, hy1b⟩ := hy1
  obtain ⟨hx2a, hx2b⟩ := hx2
  obtain ⟨hy2a, hy2b⟩ := hy2
  have hdx0 : -32766 ≤ x2 - x1 := by omega
  have hdx : x2 - x1 ≤ 32766 := by omega
  have hdy0 : -32766 ≤ y2 - y1 := by omega
  have hdy : y2 - y1 ≤ 32766 := by omega
  obtain ⟨a0, a1⟩ := sq_bounds (x2 - x1) hdx0 hdx
  obtain ⟨b0, b1⟩ := sq_bounds (y2 - y1) hdy0 hdy
  obtain ⟨hc0, hc⟩ := dash_count_math_le_46338 undef (x2 - x1) (y2 - y1) D hD (by omega) (by omega)
  have hlen : (x2 - x1) * (x2 - x1) + (y2 - y1) * (y2 - y1) ≤ 2147483647 := by omega
  have i1 : in_int x1 := by unfold in_int; omega
  have i2 : in_int y1 := by unfold in_int; omega
  have i3 : in_int x2 := by unfold in_int; omega
  have i4 : in_int y2 := by unfold in_int; omega
  refine ⟨by unfold in_int; omega, by unfold in_int; omega, by unfold in_int; omega,
    by unfold in_int; omega, by unfold in_int; omega, ?_,
    draw_dashed_line_iters_eq_math undef x1 y1 x2 y2 D i1 i2 i3 i4 hlen hD,
    draw_dashed_line_eq_math undef x1 y1 x2 y2 D i1 i2 i3 i4 hlen hD⟩
  intro i hi
  have hi0 : (0 : Int) ≤ (i : Int) := Int.natCast_nonneg i
  obtain ⟨p0, p1⟩ := mul_bounds (i : Int) (x2 - x1) hi0 (by omega) hdx0 hdx
  obtain ⟨q0, q1⟩ := mul_bounds (i : Int) (y2 - y1) hi0 (by omega) hdy0 hdy
  obtain ⟨r0, r1⟩ := mul_bounds ((i : Int) + 1) (x2 - x1) (by omega) (by omega) hdx0 hdx
  obtain ⟨s0, s1⟩ := mul_bounds ((i : Int) + 1) (y2 - y1) (by omega) (by omega) hdy0 hdy
  refine ⟨?_, ?_, ?_, ?_⟩ <;> (unfold in_int; omega)

/-- Witness of C18: the segment from `(-16383, -16383)` to `(16383, 16383)`,
the longest of the range, with dash length `1`. -/
theorem C18_no_overflow_witness :
    ((-16383 : Int) ≤ -16383 ∧ (-16383 : Int) ≤ 16383) ∧
    ((-16383 : Int) ≤ -16383 ∧ (-16383 : Int) ≤ 16383) ∧
    ((-16383 : Int) ≤ 16383 ∧ (16383 : Int) ≤ 16383) ∧
    ((-16383 : Int) ≤ 16383 ∧ (16383 : Int) ≤ 16383) ∧ (1 : Int) ≤ 1 ∧
    (in_int (16383 - -16383) ∧ in_int (16383 - -16383) ∧
    in_int ((16383 - -16383) * (16383 - -16383)) ∧ in_int ((16383 - -16383) * (16383 - -16383)) ∧
    in_int ((16383 - -16383) * (16383 - -16383) + (16383 - -16383) * (16383 - -16383)) ∧
    (∀ i : Nat, (i : Int) < dash_count_math 0 (16383 - -16383) (16383 - -16383) 1 →
      in_int ((i : Int) * (16383 - -16383)) ∧ in_int (((i : Int) + 1) * (16383 - -16383)) ∧
      in_int ((i : Int) * (16383 - -16383)) ∧ in_int (((i : Int) + 1) * (16383 - -16383))) ∧
    draw_dashed_line_iters 0 (-16383) (-16383) 16383 16383 1 =
      draw_dashed_line_iters_math 0 (-16383) (-16383) 16383 16383 1 ∧
    draw_dashed_line 0 (-16383) (-16383) 16383 16383 1 =
      draw_dashed_line_math 0 (-16383) (-16383) 16383 16383 1) :=
  ⟨by decide, by decide, by decide, by decide, by decide,
   C18_no_overflow 0 (-16383) (-16383) 16383 16383 1 (by decide) (by decide) (by decide)
    (by decide) (by decide)⟩

/-! ## Lemmas on the visualisation -/

/-- A conversion to `int` that gives the same integer for two different
values of `undef` is defined, and gives that integer for every `undef`. -/
theorem F64.toInt_indep (a : F64) (z : Int) (h0 : F64.toInt 0 a = z) (h1 : F64.toInt 1 a = z)
    (undef : Int) : F64.toInt undef a = z := by
  cases a with
  | zero s => exact h0
  | fin s m e =>
    simp only [F64.toInt] at h0 h1 ⊢
    split_ifs at h0 h1 ⊢
    all_goals first
      | exact h0
      | omega
  | inf s =>
    simp only [F64.toInt] at h0 h1
    omega
  | nan =>
    simp only [F64.toInt] at h0 h1
    omega

/-- Keeping the drawn iterations of a list of sub-segments keeps the even
indices. -/
theorem filterMap_drawn (f : Nat → DashIter) (hf : ∀ i, (f i).drawn = decide (i % 2 = 0))
    (l : List Nat) :
    (l.map f).filterMap (fun it =>
        if it.drawn then some (SDLCall.renderDrawLine it.start_x it.start_y it.end_x it.end_y)
        else none) =
      (l.filter (fun i => i % 2 = 0)).map fun i =>
        SDLCall.renderDrawLine (f i).start_x (f i).start_y (f i).end_x (f i).end_y := by
  induction l with
  | nil => rfl
  | cons i rest ih =>
    rw [List.map_cons, List.filterMap_cons, ih]
    by_cases h : i % 2 = 0
    · simp [hf i, h, List.filter_cons]
    · simp [hf i, h, List.filter_cons]

/-- The strokes of a dashed line are the sub-segments of even index. -/
theorem dashed_strokes_eq_map (undef x1 y1 x2 y2 D : Int) :
    dashed_strokes undef x1 y1 x2 y2 D =
      ((List.range (dash_count undef (wrap32 (x2 - x1)) (wrap32 (y2 - y1)) D).toNat).filter
        (fun i => i % 2 = 0)).map fun i =>
        SDLCall.renderDrawLine
          (sub_segment x1 y1 (wrap32 (x2 - x1)) (wrap32 (y2 - y1))
            (dash_count undef (wrap32 (x2 - x1)) (wrap32 (y2 - y1)) D) i).start_x
          (sub_segment x1 y1 (wrap32 (x2 - x1)) (wrap32 (y2 - y1))
            (dash_count undef (wrap32 (x2 - x1)) (wrap32 (y2 - y1)) D) i).start_y
          (sub_segment x1 y1 (wrap32 (x2 - x1)) (wrap32 (y2 - y1))
            (dash_count undef (wrap32 (x2 - x1)) (wrap32 (y2 - y1)) D) i).end_x
          (sub_segment x1 y1 (wrap32 (x2 - x1)) (wrap32 (y2 - y1))
            (dash_count undef (wrap32 (x2 - x1)) (wrap32 (y2 - y1)) D) i).end_y := by
  simp only [dashed_strokes, sub_segments]
  exact filterMap_drawn _ (fun i => rfl) _

theorem dashed_strokes_length (undef x1 y1 x2 y2 D : Int) :
    (dashed_strokes undef x1 y1 x2 y2 D).length =
      ((dash_count undef (wrap32 (x2 - x1)) (wrap32 (y2 - y1)) D).toNat + 1) / 2 := by
  rw [dashed_strokes_eq_map, List.length_map, length_filter_even_range]

/-- A horizontal segment from abscissa `0` to abscissa `640` has dash count
`64` for the dash length `10`. -/
theorem dash_count_640 (undef y1 : Int) :
    dash_count undef (wrap32 (640 - 0)) (wrap32 (y1 - y1)) 10 = 64 := by
  have hy : wrap32 (y1 - y1) = 0 := by
    rw [sub_self]; decide
  have hw : wrap32 (640 - 0) = 640 := by decide
  have hs : wrap32 (wrap32 ((640 : Int) * 640) + wrap32 ((0 : Int) * 0)) = 409600 := by decide
  have hq : Nat.sqrt 409600 = 640 := nat_sqrt_eq _ _ (by norm_num) (by norm_num)
  simp only [dash_count, hy, hw, hs]
  rw [if_neg (by decide), if_neg (by decide)]
  have ht : (409600 : Int).toNat = 409600 := by decide
  rw [ht, hq]
  decide

/-- The calls of `visualize_svm`, in order, for any model. -/
theorem visualize_svm_eq (undef : Int) (x y : Nat → Int) (colors : Nat → Color) (n : Int)
    (model : SVMModel) :
    visualize_svm undef x y colors n model =
      some (visualize_setup ++ visualize_points x y colors n ++
        [SDLCall.setRenderDrawColor 0 255 0 255,
         SDLCall.renderDrawLine 0 (wrap32 (line_y undef model (-320) model.b + 240))
           640 (wrap32 (line_y undef model 320 model.b + 240)),
         SDLCall.setRenderDrawColor 0 0 0 255] ++
        dashed_strokes undef 0 (wrap32 (upper_y undef model (-320) + 240))
          640 (wrap32 (upper_y undef model 320 + 240)) 10 ++
        dashed_strokes undef 0 (wrap32 (lower_y undef model (-320) + 240))
          640 (wrap32 (lower_y undef model 320 + 240)) 10 ++
        visualize_finish) := by
  have hx1 : Int.tdiv (-(640 : Int)) 2 = -320 := by decide
  have hx2 : Int.tdiv (640 : Int) 2 = 320 := by decide
  have hh : Int.tdiv (480 : Int) 2 = 240 := by decide
  have hp : Int.tdiv (10 : Int) 2 = 5 := by decide
  have hw0 : wrap32 (-320 + 320) = 0 := by decide
  have hw1 : wrap32 (320 + 320) = 640 := by decide
  simp only [visualize_svm, draw_dashed_line_eq_strokes, WINDOW_WIDTH, WINDOW_HEIGHT,
    POINT_SIZE, MARGIN_WIDTH, hx1, hx2, hh, hp, hw0, hw1, line_y, upper_y, lower_y,
    visualize_setup, visualize_points, visualize_finish, Option.bind_eq_bind, Option.some_bind,
    Option.pure_def, List.append_assoc]
  simp only [List.cons_append, List.nil_append, List.append_assoc]

/-- The first segment `visualize_svm` draws is the decision boundary. -/
theorem first_line_visualize (undef : Int) (x y : Nat → Int) (colors : Nat → Color) (n : Int)
    (model : SVMModel) :
    (visualize_svm undef x y colors n model).bind first_line =
      some (0, wrap32 (line_y undef model (-320) model.b + 240),
        640, wrap32 (line_y undef model 320 model.b + 240)) := by
  have hpts : (visualize_points x y colors n).findSome? SDLCall.lineArgs = none := by
    rw [List.findSome?_eq_none_iff]
    intro c hc
    simp only [visualize_points, List.mem_flatMap] at hc
    obtain ⟨i, _, hi⟩ := hc
    simp at hi
    rcases hi with rfl | rfl <;> rfl
  rw [visualize_svm_eq]
  simp only [Option.some_bind, first_line, List.findSome?_append, hpts]
  simp [visualize_setup, SDLCall.lineArgs]

/-- With a zero for `w1` every ordinate is the undefined conversion. -/
theorem line_y_of_w1_zero (undef : Int) (model : SVMModel) (s : Bool)
    (hw : model.w1 = F64.zero s) (x : Int) (c : F64) :
    line_y undef model x c = undef := by
  rw [line_y, hw, F64.toInt_div_zero]

theorem upper_y_of_w1_zero (undef : Int) (model : SVMModel) (s : Bool)
    (hw : model.w1 = F64.zero s) (x : Int) : upper_y undef model x = undef := by
  rw [upper_y, hw, F64.toInt_div_zero]

theorem lower_y_of_w1_zero (undef : Int) (model : SVMModel) (s : Bool)
    (hw : model.w1 = F64.zero s) (x : Int) : lower_y undef model x = undef := by
  rw [lower_y, hw, F64.toInt_div_zero]

/-- The double `320.0`. -/
theorem F64.ofInt_320 : F64.ofInt 320 = F64.fin false 5629499534213120 (-44) := by decide!

/-- The double `-320.0`. -/
theorem F64.ofInt_neg_320 : F64.ofInt (-320) = F64.fin true 5629499534213120 (-44) := by decide!

/-- The double `40.0`. -/
theorem F64.ofInt_40 : F64.ofInt 40 = F64.fin false 5629499534213120 (-47) := by decide!

/-- With a zero for `w0` the sum `w0 * x + b` at `x = 320` and at `x = -320`
is the same double, or two zeros. -/
theorem sum_of_w0_zero (s : Bool) (b : F64) :
    F64.add (F64.mul (F64.zero s) (F64.ofInt 320)) b =
        F64.add (F64.mul (F64.zero s) (F64.ofInt (-320))) b ∨
      ((∃ t, F64.add (F64.mul (F64.zero s) (F64.ofInt 320)) b = F64.zero t) ∧
        ∃ t, F64.add (F64.mul (F64.zero s) (F64.ofInt (-320))) b = F64.zero t) := by
  rw [F64.ofInt_320, F64.ofInt_neg_320]
  cases b with
  | zero t => exact Or.inr ⟨⟨_, rfl⟩, ⟨_, rfl⟩⟩
  | fin t m e => exact Or.inl rfl
  | inf t => exact Or.inl rfl
  | nan => exact Or.inl rfl

/-- The conversion to `int` of a quotient of the opposite of a zero does not
depend on the sign of that zero. -/
theorem toInt_div_neg_zero (undef : Int) (t u : Bool) (w : F64) :
    F64.toInt undef (F64.div (F64.neg (F64.zero t)) w) =
      F64.toInt undef (F64.div (F64.neg (F64.zero u)) w) := by
  cases w <;> rfl

/-- With a zero for `w0` the three segments are horizontal. -/
theorem horizontal_of_w0_zero (undef : Int) (model : SVMModel) (s : Bool)
    (hw : model.w0 = F64.zero s) :
    line_y undef model 320 model.b = line_y undef model (-320) model.b ∧
    upper_y undef model 320 = upper_y undef model (-320) ∧
    lower_y undef model 320 = lower_y undef model (-320) := by
  simp only [line_y, upper_y, lower_y, hw]
  rcases sum_of_w0_zero s model.b with h | ⟨⟨t, ht⟩, ⟨u, hu⟩⟩
  · rw [h]
    exact ⟨rfl, rfl, rfl⟩
  · rw [ht, hu, F64.ofInt_40]
    refine ⟨toInt_div_neg_zero undef t u model.w1, ?_, ?_⟩
    · cases t <;> cases u <;> rfl
    · cases t <;> cases u <;> rfl

/-! ## The claims on the visualisation -/

/-- C7, amended. For every model and the 640 by 480 window, after the setup
and the data points `visualize_svm` sets the green colour and draws the
boundary from `(-320 + 320, Y(-320) + 240)` to `(320 + 320, Y(320) + 240)`,
that is from abscissa `0` to abscissa `640`, the sums being 32-bit sums; this
is the first segment it draws.  `Y(x)` is the value of the double expression
`-(w0 * x + b) / w1`, each operation rounded to a double, converted to `int`:
truncated toward zero when it lies in the range of `int`, and `undef` (the
conversion is undefined) otherwise.  The sum `Y(x) + 240` is the mathematical
one when it lies in the range of `int`. -/
theorem C7_boundary_endpoints (undef : Int) (x y : Nat → Int) (colors : Nat → Color) (n : Int)
    (model : SVMModel) :
    (∃ rest, visualize_svm undef x y colors n model =
      some (visualize_setup ++ visualize_points x y colors n ++
        SDLCall.setRenderDrawColor 0 255 0 255 ::
        SDLCall.renderDrawLine
          (wrap32 (-320 + 320))
          (wrap32 (F64.toInt undef (F64.div (F64.neg
            (F64.add (F64.mul model.w0 (F64.ofInt (-320))) model.b)) model.w1) + 240))
          (wrap32 (320 + 320))
          (wrap32 (F64.toInt undef (F64.div (F64.neg
            (F64.add (F64.mul model.w0 (F64.ofInt 320)) model.b)) model.w1) + 240)) ::
        rest)) ∧
    (visualize_svm undef x y colors n model).bind first_line =
      some (wrap32 (-320 + 320),
        wrap32 (F64.toInt undef (F64.div (F64.neg
          (F64.add (F64.mul model.w0 (F64.ofInt (-320))) model.b)) model.w1) + 240),
        wrap32 (320 + 320),
        wrap32 (F64.toInt undef (F64.div (F64.neg
          (F64.add (F64.mul model.w0 (F64.ofInt 320)) model.b)) model.w1) + 240)) ∧
    wrap32 (-320 + 320) = 0 ∧ wrap32 (320 + 320) = 640 ∧
    (∀ Y : Int, in_int (Y + 240) → wrap32 (Y + 240) = Y + 240) := by
  have hw0 : wrap32 (-320 + 320) = 0 := by decide
  have hw1 : wrap32 (320 + 320) = 640 := by decide
  refine ⟨?_, ?_, hw0, hw1, fun Y h => wrap32_of_in_int _ h⟩
  · refine ⟨SDLCall.setRenderDrawColor 0 0 0 255 ::
      (dashed_strokes undef 0 (wrap32 (upper_y undef model (-320) + 240))
          640 (wrap32 (upper_y undef model 320 + 240)) 10 ++
        dashed_strokes undef 0 (wrap32 (lower_y undef model (-320) + 240))
          640 (wrap32 (lower_y undef model 320 + 240)) 10 ++
        visualize_finish), ?_⟩
    rw [visualize_svm_eq, hw0, hw1]
    simp only [line_y, List.append_assoc, List.cons_append, List.nil_append]
  · rw [first_line_visualize, hw0, hw1]
    rfl

/-- C7 as stated fails.  For the model `w = (-2.0, -9.4)`, `b = -0.8` the
exact quotient `-(w0 * (-320) + b) / w1` of the three doubles lies between
`67` and `68`, so its truncation is `67`, but the double operations round
the quotient to `68.0` and the boundary starts at `(0, 68 + 240)`.  For the
model `w = (1, 2^-30)`, `b = 0` the quotient at `x = -320` is `343597383680`,
outside the range of `int`: its conversion is undefined, and where the
conversion yields `-2147483648` the boundary is drawn from
`(0, -2147483408)` to `(640, -2147483408)`. -/
theorem C7_boundary_endpoints_counterexample :
    F64.ofInt (-2) = F64.fin true 4503599627370496 (-51) ∧
    F64.round true 94 10 = F64.fin true 5291729562160333 (-49) ∧
    F64.round true 8 10 = F64.fin true 7205759403792794 (-53) ∧
    (67 : ℚ) ≤ -(F64.toRat (F64.fin true 4503599627370496 (-51)) * (-320) +
        F64.toRat (F64.fin true 7205759403792794 (-53))) /
      F64.toRat (F64.fin true 5291729562160333 (-49)) ∧
    -(F64.toRat (F64.fin true 4503599627370496 (-51)) * (-320) +
        F64.toRat (F64.fin true 7205759403792794 (-53))) /
      F64.toRat (F64.fin true 5291729562160333 (-49)) < 68 ∧
    (visualize_svm (-2147483648) (fun _ => 0) (fun _ => 0) (fun _ => ⟨0, 0, 0⟩) 0
      { w0 := F64.ofInt (-2), w1 := F64.round true 94 10, b := F64.round true 8 10 }).bind
        first_line = some (0, 68 + 240, 640, -68 + 240) ∧
    -(F64.toRat (F64.fin false 4503599627370496 (-52)) * (-320) + F64.toRat (F64.zero false)) /
      F64.toRat (F64.fin false 4503599627370496 (-82)) = 343597383680 ∧
    (visualize_svm (-2147483648) (fun _ => 0) (fun _ => 0) (fun _ => ⟨0, 0, 0⟩) 0
      { w0 := F64.fin false 4503599627370496 (-52), w1 := F64.fin false 4503599627370496 (-82),
        b := F64.zero false }).bind first_line =
      some (0, -2147483408, 640, -2147483408) := by
  have h1 : line_y (-2147483648)
      { w0 := F64.ofInt (-2), w1 := F64.round true 94 10, b := F64.round true 8 10 } (-320)
      (F64.round true 8 10) = 68 := by decide!
  have h2 : line_y (-2147483648)
      { w0 := F64.ofInt (-2), w1 := F64.round true 94 10, b := F64.round true 8 10 } 320
      (F64.round true 8 10) = -68 := by decide!
  have h3 : line_y (-2147483648)
      { w0 := F64.fin false 4503599627370496 (-52), w1 := F64.fin false 4503599627370496 (-82),
        b := F64.zero false } (-320) (F64.zero false) = -2147483648 := by decide!
  have h4 : line_y (-2147483648)
      { w0 := F64.fin false 4503599627370496 (-52), w1 := F64.fin false 4503599627370496 (-82),
        b := F64.zero false } 320 (F64.zero false) = -2147483648 := by decide!
  refine ⟨by decide!, by decide!, by decide!, ?_, ?_, ?_, ?_, ?_⟩
  · norm_num [F64.toRat]
  · norm_num [F64.toRat]
  · rw [first_line_visualize, h1, h2]
    decide
  · norm_num [F64.toRat]
  · rw [first_line_visualize, h3, h4]
    decide

/-- C8, amended. For the 640 by 480 window and the model `w = (1, 2)`,
`b = 0`, the boundary computation gives the model-space ordinates `160` at
`x = -320` and `-160` at `x = 320`, and `visualize_svm` draws the boundary
from the screen point `(0, 400)` to the screen point `(640, 80)`. -/
theorem C8_boundary_example (undef : Int) (x y : Nat → Int) (colors : Nat → Color) (n : Int) :
    F64.toInt undef (F64.div (F64.neg (F64.add (F64.mul (F64.ofInt 1) (F64.ofInt (-320)))
      (F64.zero false))) (F64.ofInt 2)) = 160 ∧
    F64.toInt undef (F64.div (F64.neg (F64.add (F64.mul (F64.ofInt 1) (F64.ofInt 320))
      (F64.zero false))) (F64.ofInt 2)) = -160 ∧
    (visualize_svm undef x y colors n
      { w0 := F64.ofInt 1, w1 := F64.ofInt 2, b := F64.zero false }).bind first_line =
      some (0, 400, 640, 80) := by
  have h1 : F64.toInt undef (F64.div (F64.neg (F64.add (F64.mul (F64.ofInt 1) (F64.ofInt (-320)))
      (F64.zero false))) (F64.ofInt 2)) = 160 :=
    F64.toInt_indep _ _ (by decide!) (by decide!) undef
  have h2 : F64.toInt undef (F64.div (F64.neg (F64.add (F64.mul (F64.ofInt 1) (F64.ofInt 320))
      (F64.zero false))) (F64.ofInt 2)) = -160 :=
    F64.toInt_indep _ _ (by decide!) (by decide!) undef
  refine ⟨h1, h2, ?_⟩
  rw [first_line_visualize]
  simp only [line_y, h1, h2]
  decide

/-- C8 as stated fails: for the model `w = (1, 2)`, `b = 0` the boundary
`visualize_svm` draws runs from `(0, 400)` to `(640, 80)`, which is not the
segment from `(320, 400)` to `(960, 80)`. -/
theorem C8_boundary_example_counterexample :
    (visualize_svm 0 (fun _ => 0) (fun _ => 0) (fun _ => ⟨0, 0, 0⟩) 0
      { w0 := F64.ofInt 1, w1 := F64.ofInt 2, b := F64.zero false }).bind first_line =
        some (0, 400, 640, 80) ∧
    (visualize_svm 0 (fun _ => 0) (fun _ => 0) (fun _ => ⟨0, 0, 0⟩) 0
      { w0 := F64.ofInt 1, w1 := F64.ofInt 2, b := F64.zero false }).bind first_line ≠
        some (320, 400, 960, 80) := by
  have h1 : line_y 0 { w0 := F64.ofInt 1, w1 := F64.ofInt 2, b := F64.zero false } (-320)
      (F64.zero false) = 160 := by decide!
  have h2 : line_y 0 { w0 := F64.ofInt 1, w1 := F64.ofInt 2, b := F64.zero false } 320
      (F64.zero false) = -160 := by decide!
  rw [first_line_visualize, h1, h2]
  constructor <;> decide

/-- C9, amended. For every model, the two segments `visualize_svm` passes to
`draw_dashed_line` (dash length 10), in that order after the boundary and the
black colour, have the abscissas and the translation of the boundary and the
ordinates `-(w0 * x + b + 40) / w1` and `-(w0 * x + b - 40) / w1` evaluated
in doubles from left to right and converted to `int`: the offset
`MARGIN_WIDTH = 40` is added to, or subtracted from, the rounded sum
`w0 * x + b`, not the bias.  When these double sums associate at `x = -320`
and `x = 320`, that is `(w0 * x + b) + 40 = w0 * x + (b + 40)` and
`(w0 * x + b) - 40 = w0 * x + (b - 40)` in double arithmetic, the two
segments are the boundary segments the same computation draws for the model
with `b` replaced by `b + 40` and by `b - 40`. -/
theorem C9_margin_segments (undef : Int) (x y : Nat → Int) (colors : Nat → Color) (n : Int)
    (model : SVMModel) :
    MARGIN_WIDTH = 40 ∧
    (∃ du dl : List SDLCall,
      draw_dashed_line undef 0
        (wrap32 (F64.toInt undef (F64.div (F64.neg (F64.add
          (F64.add (F64.mul model.w0 (F64.ofInt (-320))) model.b) (F64.ofInt 40))) model.w1) + 240))
        640
        (wrap32 (F64.toInt undef (F64.div (F64.neg (F64.add
          (F64.add (F64.mul model.w0 (F64.ofInt 320)) model.b) (F64.ofInt 40))) model.w1) + 240))
        10 = some du ∧
      draw_dashed_line undef 0
        (wrap32 (F64.toInt undef (F64.div (F64.neg (F64.sub
          (F64.add (F64.mul model.w0 (F64.ofInt (-320))) model.b) (F64.ofInt 40))) model.w1) + 240))
        640
        (wrap32 (F64.toInt undef (F64.div (F64.neg (F64.sub
          (F64.add (F64.mul model.w0 (F64.ofInt 320)) model.b) (F64.ofInt 40))) model.w1) + 240))
        10 = some dl ∧
      ∃ sb : Int × Int × Int × Int,
        (visualize_svm undef x y colors n model).bind first_line = some sb ∧
        visualize_svm undef x y colors n model =
          some (visualize_setup ++ visualize_points x y colors n ++
            [SDLCall.setRenderDrawColor 0 255 0 255,
             SDLCall.renderDrawLine sb.1 sb.2.1 sb.2.2.1 sb.2.2.2,
             SDLCall.setRenderDrawColor 0 0 0 255] ++ du ++ dl ++ visualize_finish)) ∧
    ((F64.add (F64.add (F64.mul model.w0 (F64.ofInt (-320))) model.b) (F64.ofInt 40) =
        F64.add (F64.mul model.w0 (F64.ofInt (-320))) (F64.add model.b (F64.ofInt 40)) ∧
      F64.add (F64.add (F64.mul model.w0 (F64.ofInt 320)) model.b) (F64.ofInt 40) =
        F64.add (F64.mul model.w0 (F64.ofInt 320)) (F64.add model.b (F64.ofInt 40)) ∧
      F64.sub (F64.add (F64.mul model.w0 (F64.ofInt (-320))) model.b) (F64.ofInt 40) =
        F64.add (F64.mul model.w0 (F64.ofInt (-320))) (F64.sub model.b (F64.ofInt 40)) ∧
      F64.sub (F64.add (F64.mul model.w0 (F64.ofInt 320)) model.b) (F64.ofInt 40) =
        F64.add (F64.mul model.w0 (F64.ofInt 320)) (F64.sub model.b (F64.ofInt 40))) →
      ∃ sb su sl : Int × Int × Int × Int,
        (visualize_svm undef x y colors n model).bind first_line = some sb ∧
        (visualize_svm undef x y colors n
          { model with b := F64.add model.b (F64.ofInt MARGIN_WIDTH) }).bind first_line =
            some su ∧
        (visualize_svm undef x y colors n
          { model with b := F64.sub model.b (F64.ofInt MARGIN_WIDTH) }).bind first_line =
            some sl ∧
        ∃ du dl : List SDLCall,
          draw_dashed_line undef su.1 su.2.1 su.2.2.1 su.2.2.2 10 = some du ∧
          draw_dashed_line undef sl.1 sl.2.1 sl.2.2.1 sl.2.2.2 10 = some dl ∧
          visualize_svm undef x y colors n model =
            some (visualize_setup ++ visualize_points x y colors n ++
              [SDLCall.setRenderDrawColor 0 255 0 255,
               SDLCall.renderDrawLine sb.1 sb.2.1 sb.2.2.1 sb.2.2.2,
               SDLCall.setRenderDrawColor 0 0 0 255] ++ du ++ dl ++ visualize_finish)) := by
  refine ⟨rfl, ?_, ?_⟩
  · refine ⟨_, _, draw_dashed_line_eq_strokes _ _ _ _ _ _, draw_dashed_line_eq_strokes _ _ _ _ _ _,
      _, first_line_visualize undef x y colors n model, ?_⟩
    rw [visualize_svm_eq]
    rfl
  · rintro ⟨hu1, hu2, hl1, hl2⟩
    refine ⟨_, _, _, first_line_visualize undef x y colors n model,
      first_line_visualize undef x y colors n _, first_line_visualize undef x y colors n _,
      _, _, draw_dashed_line_eq_strokes _ _ _ _ _ _, draw_dashed_line_eq_strokes _ _ _ _ _ _, ?_⟩
    rw [visualize_svm_eq]
    simp only [line_y, upper_y, lower_y, MARGIN_WIDTH, hu1, hu2, hl1, hl2]

/-- Witness of C9: for the model `w = (1, 2)`, `b = 0`, with no data point,
the double sums associate, and the margin segments are the boundary segments
of the models with `b = 40` and `b = -40`. -/
theorem C9_margin_segments_witness :
    ∃ sb su sl : Int × Int × Int × Int,
      (visualize_svm 0 (fun _ => 0) (fun _ => 0) (fun _ => ⟨0, 0, 0⟩) 0
        { w0 := F64.ofInt 1, w1 := F64.ofInt 2, b := F64.zero false }).bind first_line =
          some sb ∧
      (visualize_svm 0 (fun _ => 0) (fun _ => 0) (fun _ => ⟨0, 0, 0⟩) 0
        { ({ w0 := F64.ofInt 1, w1 := F64.ofInt 2, b := F64.zero false } : SVMModel) with
          b := F64.add (F64.zero false) (F64.ofInt MARGIN_WIDTH) }).bind first_line = some su ∧
      (visualize_svm 0 (fun _ => 0) (fun _ => 0) (fun _ => ⟨0, 0, 0⟩) 0
        { ({ w0 := F64.ofInt 1, w1 := F64.ofInt 2, b := F64.zero false } : SVMModel) with
          b := F64.sub (F64.zero false) (F64.ofInt MARGIN_WIDTH) }).bind first_line = some sl ∧
      ∃ du dl : List SDLCall,
        draw_dashed_line 0 su.1 su.2.1 su.2.2.1 su.2.2.2 10 = some du ∧
        draw_dashed_line 0 sl.1 sl.2.1 sl.2.2.1 sl.2.2.2 10 = some dl ∧
        visualize_svm 0 (fun _ => 0) (fun _ => 0) (fun _ => ⟨0, 0, 0⟩) 0
            { w0 := F64.ofInt 1, w1 := F64.ofInt 2, b := F64.zero false } =
          some (visualize_setup ++ visualize_points (fun _ => 0) (fun _ => 0) (fun _ => ⟨0, 0, 0⟩) 0
            ++ [SDLCall.setRenderDrawColor 0 255 0 255,
             SDLCall.renderDrawLine sb.1 sb.2.1 sb.2.2.1 sb.2.2.2,
             SDLCall.setRenderDrawColor 0 0 0 255] ++ du ++ dl ++ visualize_finish) :=
  (C9_margin_segments 0 (fun _ => 0) (fun _ => 0) (fun _ => ⟨0, 0, 0⟩) 0
    { w0 := F64.ofInt 1, w1 := F64.ofInt 2, b := F64.zero false }).2.2
    ⟨by decide!, by decide!, by decide!, by decide!⟩

/-- C9 as stated fails: for the model `w = (0.1, -8.3)`, `b = 0.3` the upper
margin segment `visualize_svm` computes starts at the ordinate `1` (screen
`241`), while the boundary computation for the same model with `b` replaced
by `b + 40` starts at the ordinate `0` (screen `240`): in doubles
`(w0 * (-320) + b) + 40` and `w0 * (-320) + (b + 40)` differ. -/
theorem C9_margin_segments_counterexample :
    visualize_svm (-2147483648) (fun _ => 0) (fun _ => 0) (fun _ => ⟨0, 0, 0⟩) 0
        { w0 := F64.round false 1 10, w1 := F64.round true 83 10, b := F64.round false 3 10 } =
      some (visualize_setup ++ visualize_points (fun _ => 0) (fun _ => 0) (fun _ => ⟨0, 0, 0⟩) 0 ++
        [SDLCall.setRenderDrawColor 0 255 0 255,
         SDLCall.renderDrawLine 0 (-3 + 240) 640 (3 + 240),
         SDLCall.setRenderDrawColor 0 0 0 255] ++
        dashed_strokes (-2147483648) 0 (1 + 240) 640 (8 + 240) 10 ++
        dashed_strokes (-2147483648) 0 (-8 + 240) 640 (0 + 240) 10 ++
        visualize_finish) ∧
    (visualize_svm (-2147483648) (fun _ => 0) (fun _ => 0) (fun _ => ⟨0, 0, 0⟩) 0
      { w0 := F64.round false 1 10, w1 := F64.round true 83 10,
        b := F64.add (F64.round false 3 10) (F64.ofInt MARGIN_WIDTH) }).bind first_line =
      some (0, 0 + 240, 640, 8 + 240) ∧
    ((1 : Int) + 240 ≠ 0 + 240) ∧
    F64.add (F64.add (F64.mul (F64.round false 1 10) (F64.ofInt (-320))) (F64.round false 3 10))
        (F64.ofInt 40) ≠
      F64.add (F64.mul (F64.round false 1 10) (F64.ofInt (-320)))
        (F64.add (F64.round false 3 10) (F64.ofInt 40)) := by
  have h1 : line_y (-2147483648)
      { w0 := F64.round false 1 10, w1 := F64.round true 83 10, b := F64.round false 3 10 }
      (-320) (F64.round false 3 10) = -3 := by decide!
  have h2 : line_y (-2147483648)
      { w0 := F64.round false 1 10, w1 := F64.round true 83 10, b := F64.round false 3 10 }
      320 (F64.round false 3 10) = 3 := by decide!
  have h3 : upper_y (-2147483648)
      { w0 := F64.round false 1 10, w1 := F64.round true 83 10, b := F64.round false 3 10 }
      (-320) = 1 := by decide!
  have h4 : upper_y (-2147483648)
      { w0 := F64.round false 1 10, w1 := F64.round true 83 10, b := F64.round false 3 10 }
      320 = 8 := by decide!
  have h5 : lower_y (-2147483648)
      { w0 := F64.round false 1 10, w1 := F64.round true 83 10, b := F64.round false 3 10 }
      (-320) = -8 := by decide!
  have h6 : lower_y (-2147483648)
      { w0 := F64.round false 1 10, w1 := F64.round true 83 10, b := F64.round false 3 10 }
      320 = 0 := by decide!
  have h7 : line_y (-2147483648)
      { w0 := F64.round false 1 10, w1 := F64.round true 83 10,
        b := F64.add (F64.round false 3 10) (F64.ofInt MARGIN_WIDTH) }
      (-320) (F64.add (F64.round false 3 10) (F64.ofInt MARGIN_WIDTH)) = 0 := by decide!
  have h8 : line_y (-2147483648)
      { w0 := F64.round false 1 10, w1 := F64.round true 83 10,
        b := F64.add (F64.round false 3 10) (F64.ofInt MARGIN_WIDTH) }
      320 (F64.add (F64.round false 3 10) (F64.ofInt MARGIN_WIDTH)) = 8 := by decide!
  have w : ∀ z : Int, in_int (z + 240) → wrap32 (z + 240) = z + 240 :=
    fun z h => wrap32_of_in_int _ h
  refine ⟨?_, ?_, by decide, by decide!⟩
  · rw [visualize_svm_eq, h1, h2, h3, h4, h5, h6, w (-3) (by decide), w 3 (by decide),
      w 1 (by decide), w 8 (by decide), w (-8) (by decide), w 0 (by decide)]
  · rw [first_line_visualize, h7, h8, w 0 (by decide), w 8 (by decide)]

/-- C10, amended. For a model whose `w1` is a zero, `visualize_svm` has no
guard: every division by `w1` is performed and its result is infinite or
NaN, never finite; the function still returns normally and, with `undef` the
integer the conversion of such a value yields, it draws the boundary from
`(0, undef + 240)` to `(640, undef + 240)` (a 32-bit sum) and both dashed
margin lines, of 32 strokes each. -/
theorem C10_degenerate_model_is_drawn (undef : Int) (x y : Nat → Int) (colors : Nat → Color)
    (n : Int) (model : SVMModel) (hw : ∃ s, model.w1 = F64.zero s) :
    (∀ a : F64, (∃ t, F64.div a model.w1 = F64.inf t) ∨ F64.div a model.w1 = F64.nan) ∧
    visualize_svm undef x y colors n model =
      some (visualize_setup ++ visualize_points x y colors n ++
        [SDLCall.setRenderDrawColor 0 255 0 255,
         SDLCall.renderDrawLine 0 (wrap32 (undef + 240)) 640 (wrap32 (undef + 240)),
         SDLCall.setRenderDrawColor 0 0 0 255] ++
        dashed_strokes undef 0 (wrap32 (undef + 240)) 640 (wrap32 (undef + 240)) 10 ++
        dashed_strokes undef 0 (wrap32 (undef + 240)) 640 (wrap32 (undef + 240)) 10 ++
        visualize_finish) ∧
    (dashed_strokes undef 0 (wrap32 (undef + 240)) 640 (wrap32 (undef + 240)) 10).length = 32 ∧
    (in_int (undef + 240) → wrap32 (undef + 240) = undef + 240) := by
  obtain ⟨s, hs⟩ := hw
  refine ⟨?_, ?_, ?_, fun h => wrap32_of_in_int _ h⟩
  · intro a
    rw [hs]
    exact F64.div_zero_cases a s
  · rw [visualize_svm_eq]
    simp only [line_y_of_w1_zero undef model s hs, upper_y_of_w1_zero undef model s hs,
      lower_y_of_w1_zero undef model s hs]
  · rw [dashed_strokes_length, dash_count_640]
    rfl

/-- Witness of C10: the model `w = (1, 0)`, `b = 0`, with no data point, where
the conversion yields `-2147483648`. -/
theorem C10_degenerate_model_is_drawn_witness :
    (∃ s, ({ w0 := F64.ofInt 1, w1 := F64.zero false, b := F64.zero false } : SVMModel).w1 =
      F64.zero s) ∧
    ((∀ a : F64,
      (∃ t, F64.div a ({ w0 := F64.ofInt 1, w1 := F64.zero false, b := F64.zero false } :
        SVMModel).w1 = F64.inf t) ∨
      F64.div a ({ w0 := F64.ofInt 1, w1 := F64.zero false, b := F64.zero false } :
        SVMModel).w1 = F64.nan) ∧
    visualize_svm (-2147483648) (fun _ => 0) (fun _ => 0) (fun _ => ⟨0, 0, 0⟩) 0
        { w0 := F64.ofInt 1, w1 := F64.zero false, b := F64.zero false } =
      some (visualize_setup ++ visualize_points (fun _ => 0) (fun _ => 0) (fun _ => ⟨0, 0, 0⟩) 0 ++
        [SDLCall.setRenderDrawColor 0 255 0 255,
         SDLCall.renderDrawLine 0 (wrap32 (-2147483648 + 240)) 640 (wrap32 (-2147483648 + 240)),
         SDLCall.setRenderDrawColor 0 0 0 255] ++
        dashed_strokes (-2147483648) 0 (wrap32 (-2147483648 + 240)) 640
          (wrap32 (-2147483648 + 240)) 10 ++
        dashed_strokes (-2147483648) 0 (wrap32 (-2147483648 + 240)) 640
          (wrap32 (-2147483648 + 240)) 10 ++
        visualize_finish) ∧
    (dashed_strokes (-2147483648) 0 (wrap32 (-2147483648 + 240)) 640
      (wrap32 (-2147483648 + 240)) 10).length = 32 ∧
    (in_int (-2147483648 + 240) → wrap32 (-2147483648 + 240) = -2147483648 + 240)) :=
  ⟨⟨false, rfl⟩, C10_degenerate_model_is_drawn (-2147483648) (fun _ => 0) (fun _ => 0)
    (fun _ => ⟨0, 0, 0⟩) 0 { w0 := F64.ofInt 1, w1 := F64.zero false, b := F64.zero false }
    ⟨false, rfl⟩⟩

/-- C10 as stated fails: for the model `w = (1, 0)`, `b = 0` the quotient
`-(w0 * (-320) + b) / w1` is computed and is infinite, `visualize_svm`
returns normally, and a boundary line is drawn (here with the conversion
yielding `-2147483648`). -/
theorem C10_degenerate_model_counterexample :
    F64.div (F64.neg (F64.add (F64.mul (F64.ofInt 1) (F64.ofInt (-320))) (F64.zero false)))
      (F64.zero false) = F64.inf false ∧
    (visualize_svm (-2147483648) (fun _ => 0) (fun _ => 0) (fun _ => ⟨0, 0, 0⟩) 0
      { w0 := F64.ofInt 1, w1 := F64.zero false, b := F64.zero false }).isSome = true ∧
    (visualize_svm (-2147483648) (fun _ => 0) (fun _ => 0) (fun _ => ⟨0, 0, 0⟩) 0
      { w0 := F64.ofInt 1, w1 := F64.zero false, b := F64.zero false }).bind first_line =
        some (0, -2147483408, 640, -2147483408) := by
  refine ⟨by decide!, ?_, ?_⟩
  · rw [visualize_svm_eq]; rfl
  · rw [first_line_visualize]
    simp only [line_y_of_w1_zero (-2147483648)
      { w0 := F64.ofInt 1, w1 := F64.zero false, b := F64.zero false } false rfl]
    decide

/-! ## The rise of the margin segments -/

/-- C14, amended. The margin segments share the two abscissas of the boundary
(`0` and `640` on the screen), but each of the six ordinates is a double
quotient rounded and converted to `int` on its own, and the rise of a margin
segment need not be the rise of the boundary.  The calls of `visualize_svm`
are the setup, the points, the boundary, and the two dashed lines through
these ordinates.  When `w0` is a zero the three segments are horizontal: the
two ordinates of each are equal, so the three rises are `0`. -/
theorem C14_margin_rise (undef : Int) (x y : Nat → Int) (colors : Nat → Color) (n : Int)
    (model : SVMModel) :
    visualize_svm undef x y colors n model =
      some (visualize_setup ++ visualize_points x y colors n ++
        [SDLCall.setRenderDrawColor 0 255 0 255,
         SDLCall.renderDrawLine 0 (wrap32 (line_y undef model (-320) model.b + 240))
           640 (wrap32 (line_y undef model 320 model.b + 240)),
         SDLCall.setRenderDrawColor 0 0 0 255] ++
        dashed_strokes undef 0 (wrap32 (upper_y undef model (-320) + 240))
          640 (wrap32 (upper_y undef model 320 + 240)) 10 ++
        dashed_strokes undef 0 (wrap32 (lower_y undef model (-320) + 240))
          640 (wrap32 (lower_y undef model 320 + 240)) 10 ++
        visualize_finish) ∧
    ((∃ s, model.w0 = F64.zero s) →
      upper_y undef model 320 - upper_y undef model (-320) =
        line_y undef model 320 model.b - line_y undef model (-320) model.b ∧
      lower_y undef model 320 - lower_y undef model (-320) =
        line_y undef model 320 model.b - line_y undef model (-320) model.b ∧
      line_y undef model 320 model.b - line_y undef model (-320) model.b = 0) := by
  refine ⟨visualize_svm_eq undef x y colors n model, ?_⟩
  rintro ⟨s, hs⟩
  obtain ⟨h1, h2, h3⟩ := horizontal_of_w0_zero undef model s hs
  rw [h1, h2, h3]
  omega

/-- Witness of C14: the model `w = (0, 2)`, `b = 10`, with no data point, has
a horizontal boundary and horizontal margins. -/
theorem C14_margin_rise_witness :
    upper_y 0 { w0 := F64.zero false, w1 := F64.ofInt 2, b := F64.ofInt 10 } 320 -
        upper_y 0 { w0 := F64.zero false, w1 := F64.ofInt 2, b := F64.ofInt 10 } (-320) =
      line_y 0 { w0 := F64.zero false, w1 := F64.ofInt 2, b := F64.ofInt 10 } 320
          (F64.ofInt 10) -
        line_y 0 { w0 := F64.zero false, w1 := F64.ofInt 2, b := F64.ofInt 10 } (-320)
          (F64.ofInt 10) ∧
    lower_y 0 { w0 := F64.zero false, w1 := F64.ofInt 2, b := F64.ofInt 10 } 320 -
        lower_y 0 { w0 := F64.zero false, w1 := F64.ofInt 2, b := F64.ofInt 10 } (-320) =
      line_y 0 { w0 := F64.zero false, w1 := F64.ofInt 2, b := F64.ofInt 10 } 320
          (F64.ofInt 10) -
        line_y 0 { w0 := F64.zero false, w1 := F64.ofInt 2, b := F64.ofInt 10 } (-320)
          (F64.ofInt 10) ∧
    line_y 0 { w0 := F64.zero false, w1 := F64.ofInt 2, b := F64.ofInt 10 } 320 (F64.ofInt 10) -
      line_y 0 { w0 := F64.zero false, w1 := F64.ofInt 2, b := F64.ofInt 10 } (-320)
        (F64.ofInt 10) = 0 :=
  (C14_margin_rise 0 (fun _ => 0) (fun _ => 0) (fun _ => ⟨0, 0, 0⟩) 0
    { w0 := F64.zero false, w1 := F64.ofInt 2, b := F64.ofInt 10 }).2 ⟨false, rfl⟩

/-- C14 as stated fails.  For the model `w = (1, 3)`, `b = 0` the boundary is
drawn with the ordinates `106` and `-106` (rise `-212`), the upper margin
with `93` and `-120` and the lower margin with `120` and `-93` (rise `-213`
both).  For the model `w0 = 6980579422424271 * 2^-53`,
`w1 = 4503599627370498 * 2^-49`, `b = 7881299347898371 * 2^-45` the boundary
has the ordinates `2` and `-58` (rise `-60`) and the upper margin `-1` and
`-64` (rise `-63`). -/
theorem C14_margin_rise_counterexample :
    visualize_svm (-2147483648) (fun _ => 0) (fun _ => 0) (fun _ => ⟨0, 0, 0⟩) 0
        { w0 := F64.ofInt 1, w1 := F64.ofInt 3, b := F64.zero false } =
      some (visualize_setup ++ visualize_points (fun _ => 0) (fun _ => 0) (fun _ => ⟨0, 0, 0⟩) 0 ++
        [SDLCall.setRenderDrawColor 0 255 0 255,
         SDLCall.renderDrawLine 0 (106 + 240) 640 (-106 + 240),
         SDLCall.setRenderDrawColor 0 0 0 255] ++
        dashed_strokes (-2147483648) 0 (93 + 240) 640 (-120 + 240) 10 ++
        dashed_strokes (-2147483648) 0 (120 + 240) 640 (-93 + 240) 10 ++
        visualize_finish) ∧
    ((-120 : Int) - 93 ≠ -106 - 106) ∧ ((-93 : Int) - 120 ≠ -106 - 106) ∧
    line_y (-2147483648)
      { w0 := F64.fin false 6980579422424271 (-53), w1 := F64.fin false 4503599627370498 (-49),
        b := F64.fin false 7881299347898371 (-45) } (-320)
      (F64.fin false 7881299347898371 (-45)) = 2 ∧
    line_y (-2147483648)
      { w0 := F64.fin false 6980579422424271 (-53), w1 := F64.fin false 4503599627370498 (-49),
        b := F64.fin false 7881299347898371 (-45) } 320
      (F64.fin false 7881299347898371 (-45)) = -58 ∧
    upper_y (-2147483648)
      { w0 := F64.fin false 6980579422424271 (-53), w1 := F64.fin false 4503599627370498 (-49),
        b := F64.fin false 7881299347898371 (-45) } (-320) = -1 ∧
    upper_y (-2147483648)
      { w0 := F64.fin false 6980579422424271 (-53), w1 := F64.fin false 4503599627370498 (-49),
        b := F64.fin false 7881299347898371 (-45) } 320 = -64 ∧
    ((-64 : Int) - -1 ≠ -58 - 2) := by
  have h1 : line_y (-2147483648) { w0 := F64.ofInt 1, w1 := F64.ofInt 3, b := F64.zero false }
      (-320) (F64.zero false) = 106 := by decide!
  have h2 : line_y (-2147483648) { w0 := F64.ofInt 1, w1 := F64.ofInt 3, b := F64.zero false }
      320 (F64.zero false) = -106 := by decide!
  have h3 : upper_y (-2147483648) { w0 := F64.ofInt 1, w1 := F64.ofInt 3, b := F64.zero false }
      (-320) = 93 := by decide!
  have h4 : upper_y (-2147483648) { w0 := F64.ofInt 1, w1 := F64.ofInt 3, b := F64.zero false }
      320 = -120 := by decide!
  have h5 : lower_y (-2147483648) { w0 := F64.ofInt 1, w1 := F64.ofInt 3, b := F64.zero false }
      (-320) = 120 := by decide!
  have h6 : lower_y (-2147483648) { w0 := F64.ofInt 1, w1 := F64.ofInt 3, b := F64.zero false }
      320 = -93 := by decide!
  have w : ∀ z : Int, in_int (z + 240) → wrap32 (z + 240) = z + 240 :=
    fun z h => wrap32_of_in_int _ h
  refine ⟨?_, by decide, by decide, by decide!, by decide!, by decide!, by decide!, by decide⟩
  rw [visualize_svm_eq, h1, h2, h3, h4, h5, h6, w 106 (by decide), w (-106) (by decide),
    w 93 (by decide), w (-120) (by decide), w 120 (by decide), w (-93) (by decide)]

/-! ## Lemmas on the data generator -/

theorem tmod_rand_bounds (r : Nat) :
    0 ≤ Int.tmod (r : Int) 240 ∧ Int.tmod (r : Int) 240 < 240 := by
  have h : Int.tmod (r : Int) 240 = ((r % 240 : Nat) : Int) := (Int.ofNat_tmod r 240).symm
  have := Nat.mod_lt r (by decide : 0 < 240)
  rw [h]
  omega

/-- The first loop of `generate_data` leaves at every index it visits an
ordinate `rand() % (WINDOW_HEIGHT / 2)`, and does not touch the others: what
holds of all these remainders holds of the ordinates written. -/
theorem generate_data_red_y (rand : Nat → Nat) (P : Int → Prop)
    (hP : ∀ k : Nat, P (Int.tmod (rand k : Int) (Int.tdiv WINDOW_HEIGHT 2)))
    (l : List Nat) (s : DataState) (i : Nat) :
    (i ∈ l → P ((l.foldl (generate_data_red rand) s).y i)) ∧
    (i ∉ l → (l.foldl (generate_data_red rand) s).y i = s.y i) := by
  induction l generalizing s with
  | nil => simp
  | cons a l ih =>
    rw [List.foldl_cons]
    have ih' := ih (generate_data_red rand s a)
    constructor
    · intro hi
      by_cases hil : i ∈ l
      · exact ih'.1 hil
      · have hia : i = a := by
          rcases List.mem_cons.mp hi with h | h
          · exact h
          · exact absurd h hil
        rw [ih'.2 hil, hia]
        simp only [generate_data_red, Function.update_same]
        exact hP _
    · intro hi
      have hil : i ∉ l := fun h => hi (List.mem_cons_of_mem _ h)
      have hia : i ≠ a := fun h => hi (h ▸ List.mem_cons_self _ _)
      rw [ih'.2 hil]
      simp only [generate_data_red, Function.update_noteq hia]

/-- The second loop of `generate_data` leaves at every index it visits an
ordinate `rand() % (WINDOW_HEIGHT / 2) + WINDOW_HEIGHT / 2`, and does not
touch the others. -/
theorem generate_data_blue_y (rand : Nat → Nat) (Q : Int → Prop)
    (hQ : ∀ k : Nat, Q (Int.tmod (rand k : Int) (Int.tdiv WINDOW_HEIGHT 2) +
      Int.tdiv WINDOW_HEIGHT 2))
    (l : List Nat) (s : DataState) (i : Nat) :
    (i ∈ l → Q ((l.foldl (generate_data_blue rand) s).y i)) ∧
    (i ∉ l → (l.foldl (generate_data_blue rand) s).y i = s.y i) := by
  induction l generalizing s with
  | nil => simp
  | cons a l ih =>
    rw [List.foldl_cons]
    have ih' := ih (generate_data_blue rand s a)
    constructor
    · intro hi
      by_cases hil : i ∈ l
      · exact ih'.1 hil
      · have hia : i = a := by
          rcases List.mem_cons.mp hi with h | h
          · exact h
          · exact absurd h hil
        rw [ih'.2 hil, hia]
        simp only [generate_data_blue, Function.update_same]
        exact hQ _
    · intro hi
      have hil : i ∉ l := fun h => hi (List.mem_cons_of_mem _ h)
      have hia : i ≠ a := fun h => hi (h ▸ List.mem_cons_self _ _)
      rw [ih'.2 hil]
      simp only [generate_data_blue, Function.update_noteq hia]

/-- The ordinates `generate_data` produces: a remainder by 240 in the first
half of the array, a remainder by 240 plus 240 in the second half. -/
theorem generate_data_y_of (rand : Nat → Nat) (P Q : Int → Prop)
    (hP : ∀ k : Nat, P (Int.tmod (rand k : Int) 240))
    (hQ : ∀ k : Nat, Q (Int.tmod (rand k : Int) 240 + 240))
    (x y : Nat → Int) (colors : Nat → Color) (i : Nat) :
    (i < 50 → P ((generate_data rand x y colors).y i)) ∧
    (50 ≤ i → i < 100 → Q ((generate_data rand x y colors).y i)) := by
  have h50 : (Int.tdiv NUM_POINTS 2).toNat = 50 := by decide
  have h50' : (NUM_POINTS - Int.tdiv NUM_POINTS 2).toNat = 50 := by decide
  have hh : Int.tdiv WINDOW_HEIGHT 2 = 240 := by decide
  simp only [generate_data, h50, h50']
  constructor
  · intro hi
    have hnot : i ∉ List.range' 50 50 := by
      simp only [List.mem_range'_1]; omega
    rw [(generate_data_blue_y rand Q (by rw [hh]; exact hQ) _ _ i).2 hnot]
    exact (generate_data_red_y rand P (by rw [hh]; exact hP) _ _ i).1 (List.mem_range.mpr hi)
  · intro h1 h2
    have hmem : i ∈ List.range' 50 50 := by
      simp only [List.mem_range'_1]; omega
    exact (generate_data_blue_y rand Q (by rw [hh]; exact hQ) _ _ i).1 hmem

theorem generate_data_y_bounds (rand : Nat → Nat) (x y : Nat → Int) (colors : Nat → Color)
    (i : Nat) :
    (i < 50 → 0 ≤ (generate_data rand x y colors).y i ∧
      (generate_data rand x y colors).y i ≤ 239) ∧
    (50 ≤ i → i < 100 → 240 ≤ (generate_data rand x y colors).y i ∧
      (generate_data rand x y colors).y i ≤ 479) := by
  apply generate_data_y_of rand (fun v => 0 ≤ v ∧ v ≤ 239) (fun v => 240 ≤ v ∧ v ≤ 479)
  · intro k
    have := tmod_rand_bounds (rand k)
    constructor <;> omega
  · intro k
    have := tmod_rand_bounds (rand k)
    constructor <;> omega

/-- When every call of `rand()` returns `0`, the ordinates are `0` in the
first half of the array and `240` in the second half. -/
theorem generate_data_y_rand_zero (x y : Nat → Int) (colors : Nat → Color) (i : Nat) :
    (i < 50 → (generate_data (fun _ => 0) x y colors).y i = 0) ∧
    (50 ≤ i → i < 100 → (generate_data (fun _ => 0) x y colors).y i = 240) := by
  apply generate_data_y_of (fun _ => 0) (fun v => v = 0) (fun v => v = 240)
  · intro k; decide
  · intro k; decide

/-! ## The labels the driver hands to the trainer -/

/-- C12. The array `SDL_main` hands to `train_svm` in the place of the labels
is the array of ordinates written by `generate_data`: for every outcome of
the random generator its first 50 entries lie in `0..239` and its last 50 in
`240..479`, so no entry is `-1` and none of the last 50 is `+1`.  When every
call of `rand()` returns `0`, entry 0 is `0` and entry 50 is `240`. -/
theorem C12_driver_labels_are_ordinates :
    (∀ (undef : Int) (rand : Nat → Nat) (x y : Nat → Int) (colors : Nat → Color)
        (model : SVMModel),
      SDL_main undef rand x y colors model =
        (visualize_svm undef (generate_data rand x y colors).x (generate_data rand x y colors).y
          (generate_data rand x y colors).colors NUM_POINTS
          (train_svm model (generate_data rand x y colors).x (generate_data rand x y colors).y
            NUM_POINTS (F64.round false 1 100) 1000), 0)) ∧
    (∀ (rand : Nat → Nat) (x y : Nat → Int) (colors : Nat → Color) (i : Nat),
      (i < 50 → 0 ≤ (generate_data rand x y colors).y i ∧
        (generate_data rand x y colors).y i ≤ 239) ∧
      (50 ≤ i → i < 100 → 240 ≤ (generate_data rand x y colors).y i ∧
        (generate_data rand x y colors).y i ≤ 479)) ∧
    (∀ (rand : Nat → Nat) (x y : Nat → Int) (colors : Nat → Color) (i : Nat), i < 100 →
      (generate_data rand x y colors).y i ≠ -1 ∧
      (50 ≤ i → (generate_data rand x y colors).y i ≠ 1)) ∧
    (generate_data (fun _ => 0) (fun _ => 0) (fun _ => 0) (fun _ => ⟨0, 0, 0⟩)).y 0 = 0 ∧
    (generate_data (fun _ => 0) (fun _ => 0) (fun _ => 0) (fun _ => ⟨0, 0, 0⟩)).y 50 = 240 := by
  refine ⟨fun _ _ _ _ _ _ => rfl, generate_data_y_bounds, ?_, ?_, ?_⟩
  · intro rand x y colors i hi
    have hb := generate_data_y_bounds rand x y colors i
    constructor
    · rcases Nat.lt_or_ge i 50 with h | h
      · have := hb.1 h; omega
      · have := hb.2 h hi; omega
    · intro h
      have := hb.2 h hi; omega
  · exact (generate_data_y_rand_zero _ _ _ 0).1 (by decide)
  · exact (generate_data_y_rand_zero _ _ _ 50).2 (by decide) (by decide)


end Sdl
